import Mathlib

/-!
Verification of the AES-128 engine of this repository: the Galois-field
multiplication, the key schedule, the block transforms, the ECB/CBC/CTR
modes and the PKCS#7-style padding and validation routines.

Bytes are modelled as `Nat` values below 256; byte buffers as `List Nat`;
the 4x4 AES state as a function `Fin 4 → Fin 4 → Nat`.  Fallible
operations return `Except AESError`; the public entry points return an
`AESOutcome` that distinguishes success, recoverable errors, and the
`unimplemented!` panic paths of the source.
-/

/-- Modelled from the spec: the `constants::tables` module is not under
`src`; the spec requires the fixed 256-entry forward substitution table of
the AES specification (FIPS 197), reproduced here. -/
def S_BOX : List Nat := [
  0x63, 0x7c, 0x77, 0x7b, 0xf2, 0x6b, 0x6f, 0xc5, 0x30, 0x01, 0x67, 0x2b, 0xfe, 0xd7, 0xab, 0x76,
  0xca, 0x82, 0xc9, 0x7d, 0xfa, 0x59, 0x47, 0xf0, 0xad, 0xd4, 0xa2, 0xaf, 0x9c, 0xa4, 0x72, 0xc0,
  0xb7, 0xfd, 0x93, 0x26, 0x36, 0x3f, 0xf7, 0xcc, 0x34, 0xa5, 0xe5, 0xf1, 0x71, 0xd8, 0x31, 0x15,
  0x04, 0xc7, 0x23, 0xc3, 0x18, 0x96, 0x05, 0x9a, 0x07, 0x12, 0x80, 0xe2, 0xeb, 0x27, 0xb2, 0x75,
  0x09, 0x83, 0x2c, 0x1a, 0x1b, 0x6e, 0x5a, 0xa0, 0x52, 0x3b, 0xd6, 0xb3, 0x29, 0xe3, 0x2f, 0x84,
  0x53, 0xd1, 0x00, 0xed, 0x20, 0xfc, 0xb1, 0x5b, 0x6a, 0xcb, 0xbe, 0x39, 0x4a, 0x4c, 0x58, 0xcf,
  0xd0, 0xef, 0xaa, 0xfb, 0x43, 0x4d, 0x33, 0x85, 0x45, 0xf9, 0x02, 0x7f, 0x50, 0x3c, 0x9f, 0xa8,
  0x51, 0xa3, 0x40, 0x8f, 0x92, 0x9d, 0x38, 0xf5, 0xbc, 0xb6, 0xda, 0x21, 0x10, 0xff, 0xf3, 0xd2,
  0xcd, 0x0c, 0x13, 0xec, 0x5f, 0x97, 0x44, 0x17, 0xc4, 0xa7, 0x7e, 0x3d, 0x64, 0x5d, 0x19, 0x73,
  0x60, 0x81, 0x4f, 0xdc, 0x22, 0x2a, 0x90, 0x88, 0x46, 0xee, 0xb8, 0x14, 0xde, 0x5e, 0x0b, 0xdb,
  0xe0, 0x32, 0x3a, 0x0a, 0x49, 0x06, 0x24, 0x5c, 0xc2, 0xd3, 0xac, 0x62, 0x91, 0x95, 0xe4, 0x79,
  0xe7, 0xc8, 0x37, 0x6d, 0x8d, 0xd5, 0x4e, 0xa9, 0x6c, 0x56, 0xf4, 0xea, 0x65, 0x7a, 0xae, 0x08,
  0xba, 0x78, 0x25, 0x2e, 0x1c, 0xa6, 0xb4, 0xc6, 0xe8, 0xdd, 0x74, 0x1f, 0x4b, 0xbd, 0x8b, 0x8a,
  0x70, 0x3e, 0xb5, 0x66, 0x48, 0x03, 0xf6, 0x0e, 0x61, 0x35, 0x57, 0xb9, 0x86, 0xc1, 0x1d, 0x9e,
  0xe1, 0xf8, 0x98, 0x11, 0x69, 0xd9, 0x8e, 0x94, 0x9b, 0x1e, 0x87, 0xe9, 0xce, 0x55, 0x28, 0xdf,
  0x8c, 0xa1, 0x89, 0x0d, 0xbf, 0xe6, 0x42, 0x68, 0x41, 0x99, 0x2d, 0x0f, 0xb0, 0x54, 0xbb, 0x16]

/-- Modelled from the spec: the inverse substitution table of the AES
specification, matching the missing `constants::tables::INVERSE_S_BOX`. -/
def INVERSE_S_BOX : List Nat := [
  0x52, 0x09, 0x6a, 0xd5, 0x30, 0x36, 0xa5, 0x38, 0xbf, 0x40, 0xa3, 0x9e, 0x81, 0xf3, 0xd7, 0xfb,
  0x7c, 0xe3, 0x39, 0x82, 0x9b, 0x2f, 0xff, 0x87, 0x34, 0x8e, 0x43, 0x44, 0xc4, 0xde, 0xe9, 0xcb,
  0x54, 0x7b, 0x94, 0x32, 0xa6, 0xc2, 0x23, 0x3d, 0xee, 0x4c, 0x95, 0x0b, 0x42, 0xfa, 0xc3, 0x4e,
  0x08, 0x2e, 0xa1, 0x66, 0x28, 0xd9, 0x24, 0xb2, 0x76, 0x5b, 0xa2, 0x49, 0x6d, 0x8b, 0xd1, 0x25,
  0x72, 0xf8, 0xf6, 0x64, 0x86, 0x68, 0x98, 0x16, 0xd4, 0xa4, 0x5c, 0xcc, 0x5d, 0x65, 0xb6, 0x92,
  0x6c, 0x70, 0x48, 0x50, 0xfd, 0xed, 0xb9, 0xda, 0x5e, 0x15, 0x46, 0x57, 0xa7, 0x8d, 0x9d, 0x84,
  0x90, 0xd8, 0xab, 0x00, 0x8c, 0xbc, 0xd3, 0x0a, 0xf7, 0xe4, 0x58, 0x05, 0xb8, 0xb3, 0x45, 0x06,
  0xd0, 0x2c, 0x1e, 0x8f, 0xca, 0x3f, 0x0f, 0x02, 0xc1, 0xaf, 0xbd, 0x03, 0x01, 0x13, 0x8a, 0x6b,
  0x3a, 0x91, 0x11, 0x41, 0x4f, 0x67, 0xdc, 0xea, 0x97, 0xf2, 0xcf, 0xce, 0xf0, 0xb4, 0xe6, 0x73,
  0x96, 0xac, 0x74, 0x22, 0xe7, 0xad, 0x35, 0x85, 0xe2, 0xf9, 0x37, 0xe8, 0x1c, 0x75, 0xdf, 0x6e,
  0x47, 0xf1, 0x1a, 0x71, 0x1d, 0x29, 0xc5, 0x89, 0x6f, 0xb7, 0x62, 0x0e, 0xaa, 0x18, 0xbe, 0x1b,
  0xfc, 0x56, 0x3e, 0x4b, 0xc6, 0xd2, 0x79, 0x20, 0x9a, 0xdb, 0xc0, 0xfe, 0x78, 0xcd, 0x5a, 0xf4,
  0x1f, 0xdd, 0xa8, 0x33, 0x88, 0x07, 0xc7, 0x31, 0xb1, 0x12, 0x10, 0x59, 0x27, 0x80, 0xec, 0x5f,
  0x60, 0x51, 0x7f, 0xa9, 0x19, 0xb5, 0x4a, 0x0d, 0x2d, 0xe5, 0x7a, 0x9f, 0x93, 0xc9, 0x9c, 0xef,
  0xa0, 0xe0, 0x3b, 0x4d, 0xae, 0x2a, 0xf5, 0xb0, 0xc8, 0xeb, 0xbb, 0x3c, 0x83, 0x53, 0x99, 0x61,
  0x17, 0x2b, 0x04, 0x7e, 0xba, 0x77, 0xd6, 0x26, 0xe1, 0x69, 0x14, 0x63, 0x55, 0x21, 0x0c, 0x7d]

/-- Modelled from the spec: the round-constant table of the AES-128 key
schedule (the missing `constants::tables::ROUND_CONSTANTS`). -/
def ROUND_CONSTANTS : List Nat :=
  [0x01, 0x02, 0x04, 0x08, 0x10, 0x20, 0x40, 0x80, 0x1b, 0x36]

/-- Modelled from the spec: `constants::sizes::AES_BLOCK_SIZE` (16 bytes). -/
def AES_BLOCK_SIZE : Nat := 16

/-- Modelled from the spec: `constants::sizes::AES128_ROUNDS` (10 rounds,
11 round keys). -/
def AES128_ROUNDS : Nat := 10

/-- Forward S-box lookup of one byte (`S_BOX[b as usize]`). -/
def sbox_at (b : Nat) : Nat := S_BOX.getD b 0

/-- Inverse S-box lookup of one byte (`INVERSE_S_BOX[b as usize]`). -/
def inv_sbox_at (b : Nat) : Nat := INVERSE_S_BOX.getD b 0

/-- Loop body of `galois_multiplication` from
`src/src/utils/algebra/galois.rs`: `n` remaining iterations, accumulator
`p`, running operands `a` and `b` (all `u8` in the source, here naturals
kept below 256 by the `% 256` of the left shift). -/
def gmul_loop : Nat → Nat → Nat → Nat → Nat
  | 0, p, _, _ => p
  | n + 1, p, a, b =>
    let p2 := if b &&& 1 ≠ 0 then p ^^^ a else p
    let hi := a &&& 0x80
    let a2 := if hi ≠ 0 then a * 2 % 256 ^^^ 0x1b else a * 2 % 256
    gmul_loop n p2 a2 (b / 2)

/-- Multiplication in GF(2^8) (`galois_multiplication` in
`src/src/utils/algebra/galois.rs`): 8 rounds of peasant multiplication
with reduction constant `0x1b`. -/
def galois_multiplication (x y : Nat) : Nat := gmul_loop 8 0 x y

/-- One four-byte word of the key schedule, mirroring the `(u8,u8,u8,u8)`
tuples of `src/src/utils/aes/aes.rs`. -/
structure AESWord where
  b0 : Nat
  b1 : Nat
  b2 : Nat
  b3 : Nat
deriving DecidableEq, Repr

/-- The `word_modifier` of `src/src/utils/aes/utils.rs`: rotate the word
left by one byte, substitute each byte through the S-box, and XOR the
first byte with `ROUND_CONSTANTS[round - 1]`. -/
def word_modifier (word : AESWord) (round : Nat) : AESWord :=
  { b0 := sbox_at word.b1 ^^^ ROUND_CONSTANTS.getD (round - 1) 0
    b1 := sbox_at word.b2
    b2 := sbox_at word.b3
    b3 := sbox_at word.b0 }

/-- The word appended at position `i = ws.length` of the key expansion of
`AES::aes_128_get_round_keys`: `temp = words[i-1]`, modified when
`i % 4 == 0` with round `i / 4`, then XORed with `words[i-4]`. -/
def next_word (ws : List AESWord) : AESWord :=
  let i := ws.length
  let t0 := ws.getD (i - 1) ⟨0, 0, 0, 0⟩
  let temp := if i % 4 = 0 then word_modifier t0 (i / 4) else t0
  let prev := ws.getD (i - 4) ⟨0, 0, 0, 0⟩
  ⟨prev.b0 ^^^ temp.b0, prev.b1 ^^^ temp.b1, prev.b2 ^^^ temp.b2, prev.b3 ^^^ temp.b3⟩

/-- Append `n` further words to the key schedule, one at a time. -/
def key_expansion (ws : List AESWord) : Nat → List AESWord
  | 0 => ws
  | n + 1 => key_expansion (ws ++ [next_word ws]) n

/-- `AESKey::divide_in_words`: split a byte buffer into four-byte words
(chunks of 4; only ever applied to buffers whose length is a multiple
of 4). -/
def words_of_bytes : List Nat → List AESWord
  | a :: b :: c :: d :: rest => ⟨a, b, c, d⟩ :: words_of_bytes rest
  | _ => []

/-- Flatten a word list back to bytes, as the final
`flat_map(|&(a,b,c,d)| vec![a,b,c,d])` of `aes_128_get_round_keys`. -/
def bytes_of_words : List AESWord → List Nat
  | [] => []
  | w :: ws => w.b0 :: w.b1 :: w.b2 :: w.b3 :: bytes_of_words ws

/-- `AES::aes_128_get_round_keys` of `src/src/utils/aes/aes.rs`: the four
key words followed by 40 derived words, flattened to 176 bytes. -/
def aes_128_get_round_keys (key : List Nat) : List Nat :=
  bytes_of_words (key_expansion (words_of_bytes key) 40)

/-- The error enumeration of `src/src/utils/aes/aes_error.rs` (the
`ConversionError` payload is irrelevant here and dropped). -/
inductive AESError where
  | InvalidIndex (index max_index : Nat)
  | InvalidKeySize (n : Nat)
  | InvalidBlockSize (n : Nat)
  | PaddingError
  | ConversionError
  | AsciiError (bytes : List Nat)
  | UnexpectedError (msg : String)
deriving DecidableEq, Repr

/-- The mode selector of `src/src/utils/aes/utils.rs` (`AESMode`): ECB,
CBC with a 16-byte IV, CTR with a 64-bit nonce, GCM (never functional). -/
inductive AESMode where
  | ECB
  | CBC (iv : List Nat)
  | CTR (nonce : Nat)
  | GCM

/-- `pkcs_padding` of `src/src/utils/aes/utils.rs`.  Note that the source
computes `let text_length = bytes.as_ref().len() as u8`, truncating the
buffer length modulo 256 before taking the remainder; the `% 256` below
reproduces that cast.  The source pushes `diff` copies of `diff` in a
loop, i.e. appends `List.replicate diff diff`. -/
def pkcs_padding (bytes : List Nat) (final_length : Nat) : List Nat :=
  let text_length := bytes.length % 256
  let remainder := text_length % final_length
  if remainder ≠ 0 then
    bytes ++ List.replicate (final_length - remainder) (final_length - remainder)
  else bytes

/-- `has_valid_pkcs_padding` of `src/src/utils/aes/utils.rs`: read the
last byte as the padding count, reject a count of zero, a count above the
block size, a count exceeding the buffer length (the `checked_sub`), or a
trailing segment that is not uniformly equal to the count. -/
def has_valid_pkcs_padding (bytes : List Nat) (block_size : Nat) : Except AESError Unit :=
  if bytes.isEmpty then Except.error AESError.PaddingError
  else
    let padding_len := bytes.getLastD 0
    if padding_len = 0 ∨ block_size < padding_len then Except.error AESError.PaddingError
    else if bytes.length < padding_len then Except.error AESError.PaddingError
    else if (bytes.drop (bytes.length - padding_len)).all (fun b => b == padding_len) then
      Except.ok ()
    else Except.error AESError.PaddingError

/-- The 4x4 byte matrix of `AESBlock` (`src/src/utils/aes/aes_block.rs`):
field `mIJ` is `mat[I][J]` (row `I`, column `J`). -/
structure AESMat where
  m00 : Nat
  m01 : Nat
  m02 : Nat
  m03 : Nat
  m10 : Nat
  m11 : Nat
  m12 : Nat
  m13 : Nat
  m20 : Nat
  m21 : Nat
  m22 : Nat
  m23 : Nat
  m30 : Nat
  m31 : Nat
  m32 : Nat
  m33 : Nat
deriving DecidableEq, Repr

/-- `AESBlock::from_flat_array`: byte `i` of the flat buffer lands at row
`i mod 4`, column `i div 4`, i.e. `mat[r][c] = flat[4*c + r]`. -/
def from_flat_array (l : List Nat) : AESMat :=
  ⟨l.getD 0 0, l.getD 4 0, l.getD 8 0, l.getD 12 0,
   l.getD 1 0, l.getD 5 0, l.getD 9 0, l.getD 13 0,
   l.getD 2 0, l.getD 6 0, l.getD 10 0, l.getD 14 0,
   l.getD 3 0, l.getD 7 0, l.getD 11 0, l.getD 15 0⟩

/-- `AESBlock::to_flat_array`: `out[col*4 + row] = mat[row][col]`. -/
def to_flat_array (m : AESMat) : List Nat :=
  [m.m00, m.m10, m.m20, m.m30, m.m01, m.m11, m.m21, m.m31,
   m.m02, m.m12, m.m22, m.m32, m.m03, m.m13, m.m23, m.m33]

/-- `AESBlock::xor_with_block`: entrywise XOR. -/
def xor_with_block (m other : AESMat) : AESMat :=
  ⟨m.m00 ^^^ other.m00, m.m01 ^^^ other.m01, m.m02 ^^^ other.m02, m.m03 ^^^ other.m03,
   m.m10 ^^^ other.m10, m.m11 ^^^ other.m11, m.m12 ^^^ other.m12, m.m13 ^^^ other.m13,
   m.m20 ^^^ other.m20, m.m21 ^^^ other.m21, m.m22 ^^^ other.m22, m.m23 ^^^ other.m23,
   m.m30 ^^^ other.m30, m.m31 ^^^ other.m31, m.m32 ^^^ other.m32, m.m33 ^^^ other.m33⟩

/-- `AESBlock::add_round_key`: XOR with the 16-byte slice of the round-key
buffer at offset `round * 16`. -/
def add_round_key (round_keys : List Nat) (round : Nat) (m : AESMat) : AESMat :=
  xor_with_block m (from_flat_array ((round_keys.drop (round * 16)).take 16))

/-- `AESBlock::sub_bytes`: S-box lookup of each entry. -/
def sub_bytes (m : AESMat) : AESMat :=
  ⟨sbox_at m.m00, sbox_at m.m01, sbox_at m.m02, sbox_at m.m03,
   sbox_at m.m10, sbox_at m.m11, sbox_at m.m12, sbox_at m.m13,
   sbox_at m.m20, sbox_at m.m21, sbox_at m.m22, sbox_at m.m23,
   sbox_at m.m30, sbox_at m.m31, sbox_at m.m32, sbox_at m.m33⟩

/-- `AESBlock::inv_sub_bytes`: inverse S-box lookup of each entry. -/
def inv_sub_bytes (m : AESMat) : AESMat :=
  ⟨inv_sbox_at m.m00, inv_sbox_at m.m01, inv_sbox_at m.m02, inv_sbox_at m.m03,
   inv_sbox_at m.m10, inv_sbox_at m.m11, inv_sbox_at m.m12, inv_sbox_at m.m13,
   inv_sbox_at m.m20, inv_sbox_at m.m21, inv_sbox_at m.m22, inv_sbox_at m.m23,
   inv_sbox_at m.m30, inv_sbox_at m.m31, inv_sbox_at m.m32, inv_sbox_at m.m33⟩

/-- `AESBlock::shift_rows`: row `i` rotated left by `i` positions. -/
def shift_rows (m : AESMat) : AESMat :=
  ⟨m.m00, m.m01, m.m02, m.m03,
   m.m11, m.m12, m.m13, m.m10,
   m.m22, m.m23, m.m20, m.m21,
   m.m33, m.m30, m.m31, m.m32⟩

/-- `AESBlock::inv_shift_rows`: row `i` rotated right by `i` positions. -/
def inv_shift_rows (m : AESMat) : AESMat :=
  ⟨m.m00, m.m01, m.m02, m.m03,
   m.m13, m.m10, m.m11, m.m12,
   m.m22, m.m23, m.m20, m.m21,
   m.m31, m.m32, m.m33, m.m30⟩

/-- One entry of `AESBlock::matrix_gmult`:
`result[i][j] ^= galois_multiplication(first[i][k], second[k][j])`
accumulated over `k = 0..4` from an initial zero. -/
def gmult_entry (a0 a1 a2 a3 b0 b1 b2 b3 : Nat) : Nat :=
  0 ^^^ galois_multiplication a0 b0 ^^^ galois_multiplication a1 b1
    ^^^ galois_multiplication a2 b2 ^^^ galois_multiplication a3 b3

/-- `AESBlock::matrix_gmult`: GF(2^8) matrix product, row `i` of `first`
against column `j` of `second`. -/
def matrix_gmult (first second : AESMat) : AESMat :=
  ⟨gmult_entry first.m00 first.m01 first.m02 first.m03 second.m00 second.m10 second.m20 second.m30,
   gmult_entry first.m00 first.m01 first.m02 first.m03 second.m01 second.m11 second.m21 second.m31,
   gmult_entry first.m00 first.m01 first.m02 first.m03 second.m02 second.m12 second.m22 second.m32,
   gmult_entry first.m00 first.m01 first.m02 first.m03 second.m03 second.m13 second.m23 second.m33,
   gmult_entry first.m10 first.m11 first.m12 first.m13 second.m00 second.m10 second.m20 second.m30,
   gmult_entry first.m10 first.m11 first.m12 first.m13 second.m01 second.m11 second.m21 second.m31,
   gmult_entry first.m10 first.m11 first.m12 first.m13 second.m02 second.m12 second.m22 second.m32,
   gmult_entry first.m10 first.m11 first.m12 first.m13 second.m03 second.m13 second.m23 second.m33,
   gmult_entry first.m20 first.m21 first.m22 first.m23 second.m00 second.m10 second.m20 second.m30,
   gmult_entry first.m20 first.m21 first.m22 first.m23 second.m01 second.m11 second.m21 second.m31,
   gmult_entry first.m20 first.m21 first.m22 first.m23 second.m02 second.m12 second.m22 second.m32,
   gmult_entry first.m20 first.m21 first.m22 first.m23 second.m03 second.m13 second.m23 second.m33,
   gmult_entry first.m30 first.m31 first.m32 first.m33 second.m00 second.m10 second.m20 second.m30,
   gmult_entry first.m30 first.m31 first.m32 first.m33 second.m01 second.m11 second.m21 second.m31,
   gmult_entry first.m30 first.m31 first.m32 first.m33 second.m02 second.m12 second.m22 second.m32,
   gmult_entry first.m30 first.m31 first.m32 first.m33 second.m03 second.m13 second.m23 second.m33⟩

/-- `AESBlock::MIX_COLUMN_CT`. -/
def MIX_COLUMN_CT : AESMat :=
  ⟨0x02, 0x03, 0x01, 0x01,
   0x01, 0x02, 0x03, 0x01,
   0x01, 0x01, 0x02, 0x03,
   0x03, 0x01, 0x01, 0x02⟩

/-- `AESBlock::INV_MIX_COLUMN_CT`. -/
def INV_MIX_COLUMN_CT : AESMat :=
  ⟨0x0e, 0x0b, 0x0d, 0x09,
   0x09, 0x0e, 0x0b, 0x0d,
   0x0d, 0x09, 0x0e, 0x0b,
   0x0b, 0x0d, 0x09, 0x0e⟩

/-- `AESBlock::mix_columns` with its bypass flag. -/
def mix_columns (ignore : Bool) (m : AESMat) : AESMat :=
  if ignore then m else matrix_gmult MIX_COLUMN_CT m

/-- `AESBlock::inv_mix_columns` with its bypass flag. -/
def inv_mix_columns (ignore : Bool) (m : AESMat) : AESMat :=
  if ignore then m else matrix_gmult INV_MIX_COLUMN_CT m

/-- `AESBlock::apply_round`: substitute, shift rows, mix columns (skipped
when `ignore`), add the round key. -/
def apply_round (round_keys : List Nat) (round : Nat) (ignore : Bool) (m : AESMat) : AESMat :=
  add_round_key round_keys round (mix_columns ignore (shift_rows (sub_bytes m)))

/-- `AESBlock::apply_inverse_round`: add the round key, inverse mix
columns (skipped when `ignore`), inverse shift rows, inverse substitute. -/
def apply_inverse_round (round_keys : List Nat) (round : Nat) (ignore : Bool) (m : AESMat) : AESMat :=
  inv_sub_bytes (inv_shift_rows (inv_mix_columns ignore (add_round_key round_keys round m)))

/-- The per-block encryption pipeline of `aes_128_ecb_encode`:
`add_round_key(0)` then `apply_round` for rounds `1..=10`, round 10
skipping mix columns. -/
def encrypt_block (round_keys : List Nat) (m : AESMat) : AESMat :=
  (List.range' 1 AES128_ROUNDS).foldl
    (fun s r => apply_round round_keys r (r == AES128_ROUNDS) s)
    (add_round_key round_keys 0 m)

/-- The per-block decryption pipeline of `aes_128_ecb_decode`:
`apply_inverse_round` for rounds `10` down to `1`, then
`add_round_key(0)`. -/
def decrypt_block (round_keys : List Nat) (m : AESMat) : AESMat :=
  add_round_key round_keys 0
    ((List.range' 1 AES128_ROUNDS).reverse.foldl
      (fun s r => apply_inverse_round round_keys r (r == AES128_ROUNDS) s) m)

/-- `AES::divide_in_blocks`: reject an empty buffer with
`InvalidBlockSize(0)` (`validate_text_size`), then take the
`len / 16` exact 16-byte slices (any trailing remainder is ignored by the
source loop). -/
def divide_in_blocks (text : List Nat) : Except AESError (List AESMat) :=
  if text.length = 0 then Except.error (AESError.InvalidBlockSize 0)
  else Except.ok
    ((List.range (text.length / 16)).map fun i =>
      from_flat_array ((text.drop (16 * i)).take 16))

/-- `AES::return_blocks_as_bytes`: flatten the blocks back to bytes. -/
def return_blocks_as_bytes (blocks : List AESMat) : List Nat :=
  (blocks.map to_flat_array).flatten

/-- `AES::aes_128_ecb_encode`: pad, split, run every block through the
forward pipeline, flatten. -/
def aes_128_ecb_encode (key plaintext : List Nat) : Except AESError (List Nat) :=
  let padded := pkcs_padding plaintext AES_BLOCK_SIZE
  match divide_in_blocks padded with
  | Except.error e => Except.error e
  | Except.ok blocks =>
    let round_keys := aes_128_get_round_keys key
    Except.ok (return_blocks_as_bytes (blocks.map (encrypt_block round_keys)))

/-- `AES::aes_128_ecb_decode`: the source also applies `pkcs_padding` to
the ciphertext before splitting. -/
def aes_128_ecb_decode (key ciphertext : List Nat) : Except AESError (List Nat) :=
  let round_keys := aes_128_get_round_keys key
  let padded := pkcs_padding ciphertext AES_BLOCK_SIZE
  match divide_in_blocks padded with
  | Except.error e => Except.error e
  | Except.ok blocks =>
    Except.ok (return_blocks_as_bytes (blocks.map (decrypt_block round_keys)))

/-- CBC encryption chaining of `aes_128_cbc_encode`: each block is XORed
with the previous ciphertext block (initially the IV) before the forward
pipeline. -/
def cbc_encode_blocks (round_keys : List Nat) (prev : AESMat) : List AESMat → List AESMat
  | [] => []
  | b :: bs =>
    let c := encrypt_block round_keys (xor_with_block b prev)
    c :: cbc_encode_blocks round_keys c bs

/-- CBC decryption chaining of `aes_128_cbc_decode`: each block is run
through the inverse pipeline and XORed with the previous ciphertext block
(initially the IV), the source snapshotting the ciphertext blocks
(`ciphered_blocks`) before mutating them. -/
def cbc_decode_blocks (round_keys : List Nat) (prev : AESMat) : List AESMat → List AESMat
  | [] => []
  | c :: cs =>
    xor_with_block (decrypt_block round_keys c) prev :: cbc_decode_blocks round_keys c cs

/-- `AES::aes_128_cbc_encode`. -/
def aes_128_cbc_encode (key plaintext iv : List Nat) : Except AESError (List Nat) :=
  let round_keys := aes_128_get_round_keys key
  let padded := pkcs_padding plaintext AES_BLOCK_SIZE
  match divide_in_blocks padded with
  | Except.error e => Except.error e
  | Except.ok blocks =>
    Except.ok (return_blocks_as_bytes
      (cbc_encode_blocks round_keys (from_flat_array iv) blocks))

/-- `AES::aes_128_cbc_decode`. -/
def aes_128_cbc_decode (key ciphertext iv : List Nat) : Except AESError (List Nat) :=
  let round_keys := aes_128_get_round_keys key
  let padded := pkcs_padding ciphertext AES_BLOCK_SIZE
  match divide_in_blocks padded with
  | Except.error e => Except.error e
  | Except.ok blocks =>
    Except.ok (return_blocks_as_bytes
      (cbc_decode_blocks round_keys (from_flat_array iv) blocks))

/-- The consecutive at-most-16-byte chunks of a buffer
(`text.as_ref().chunks(16)` in `aes_128_ctr`). -/
def chunks_of_16 : List Nat → List (List Nat)
  | [] => []
  | a :: rest => List.take 16 (a :: rest) :: chunks_of_16 (List.drop 16 (a :: rest))
termination_by l => l.length
decreasing_by simp; omega

/-- `u64::to_le_bytes`: the eight little-endian bytes of a counter or
nonce. -/
def u64_to_le_bytes (n : Nat) : List Nat :=
  (List.range 8).map fun i => n / 256 ^ i % 256

/-- The chunk loop of `AES::aes_128_ctr`: for chunk index `ctr`, encrypt
the 16-byte nonce/counter block through the ECB pipeline and XOR the
keystream bytewise against the chunk (truncated to the chunk length). -/
def aes_128_ctr_chunks (key : List Nat) (nonce : Nat) :
    List (List Nat) → Nat → Except AESError (List Nat)
  | [], _ => Except.ok []
  | chunk :: rest, ctr =>
    match aes_128_ecb_encode key (u64_to_le_bytes nonce ++ u64_to_le_bytes ctr) with
    | Except.error e => Except.error e
    | Except.ok s =>
      match aes_128_ctr_chunks key nonce rest (ctr + 1) with
      | Except.error e => Except.error e
      | Except.ok tail => Except.ok (List.zipWith Nat.xor chunk s ++ tail)

/-- `AES::aes_128_ctr`: the counter starts at 0; encryption and
decryption are the same routine. -/
def aes_128_ctr (key text : List Nat) (nonce : Nat) : Except AESError (List Nat) :=
  aes_128_ctr_chunks key nonce (chunks_of_16 text) 0

/-- `AESKey` of `src/src/utils/aes/aes_key.rs`, carrying the validated
raw bytes of each size variant. -/
inductive AESKey where
  | aes128 (bytes : List Nat)
  | aes192 (bytes : List Nat)
  | aes256 (bytes : List Nat)

/-- `AESKey::try_from` / `AESKey::from_bytes`: accept exactly the byte
lengths 16, 24 and 32, otherwise `InvalidKeySize`. -/
def AESKey.from_bytes (value : List Nat) : Except AESError AESKey :=
  if value.length = 16 then Except.ok (AESKey.aes128 value)
  else if value.length = 24 then Except.ok (AESKey.aes192 value)
  else if value.length = 32 then Except.ok (AESKey.aes256 value)
  else Except.error (AESError.InvalidKeySize value.length)

/-- Outcome of a public engine call: a success value, a recoverable
`AESError`, or the process abort of an `unimplemented!` source path. -/
inductive AESOutcome where
  | ok (bytes : List Nat)
  | err (e : AESError)
  | panic
deriving DecidableEq, Repr

/-- Lift an internal result to an outcome. -/
def liftResult : Except AESError (List Nat) → AESOutcome
  | Except.ok v => AESOutcome.ok v
  | Except.error e => AESOutcome.err e

/-- `AES::encode` of `src/src/utils/aes/aes.rs`: construct the key
(failing with `InvalidKeySize`), then dispatch on mode and key variant;
every non-AES-128 combination and GCM hit `unimplemented!`. -/
def AES.encode (plaintext key_bytes : List Nat) (mode : AESMode) : AESOutcome :=
  match AESKey.from_bytes key_bytes with
  | Except.error e => AESOutcome.err e
  | Except.ok k =>
    match mode, k with
    | AESMode.ECB, AESKey.aes128 kb => liftResult (aes_128_ecb_encode kb plaintext)
    | AESMode.CBC iv, AESKey.aes128 kb => liftResult (aes_128_cbc_encode kb plaintext iv)
    | AESMode.CTR nonce, AESKey.aes128 kb => liftResult (aes_128_ctr kb plaintext nonce)
    | _, _ => AESOutcome.panic

/-- `AES::decode`: same dispatch with the inverse pipelines; CTR decoding
is the identical stream routine. -/
def AES.decode (ciphertext key_bytes : List Nat) (mode : AESMode) : AESOutcome :=
  match AESKey.from_bytes key_bytes with
  | Except.error e => AESOutcome.err e
  | Except.ok k =>
    match mode, k with
    | AESMode.ECB, AESKey.aes128 kb => liftResult (aes_128_ecb_decode kb ciphertext)
    | AESMode.CBC iv, AESKey.aes128 kb => liftResult (aes_128_cbc_decode kb ciphertext iv)
    | AESMode.CTR nonce, AESKey.aes128 kb => liftResult (aes_128_ctr kb ciphertext nonce)
    | _, _ => AESOutcome.panic

/-- Bytes of a buffer read as one big-endian natural number (used to
state hexadecimal known-answer values). -/
def bytes_be_nat (l : List Nat) : Nat :=
  l.foldl (fun acc b => acc * 256 + b) 0

/-- ASCII bytes of the key `"Thats my Kung Fu"`. -/
def kung_fu_key : List Nat :=
  [0x54, 0x68, 0x61, 0x74, 0x73, 0x20, 0x6d, 0x79,
   0x20, 0x4b, 0x75, 0x6e, 0x67, 0x20, 0x46, 0x75]

/-- ASCII bytes of the plaintext `"Two One Nine TwoTwo One Nine Two"`. -/
def two_one_nine_two : List Nat :=
  [0x54, 0x77, 0x6f, 0x20, 0x4f, 0x6e, 0x65, 0x20,
   0x4e, 0x69, 0x6e, 0x65, 0x20, 0x54, 0x77, 0x6f,
   0x54, 0x77, 0x6f, 0x20, 0x4f, 0x6e, 0x65, 0x20,
   0x4e, 0x69, 0x6e, 0x65, 0x20, 0x54, 0x77, 0x6f]

/-- Bytewise bound: every entry of a buffer is a byte value. -/
def BytesBelow256 (l : List Nat) : Prop := ∀ x ∈ l, x < 256

/-- Bytewise bound on a block state. -/
def MatBelow256 (m : AESMat) : Prop :=
  m.m00 < 256 ∧ m.m01 < 256 ∧ m.m02 < 256 ∧ m.m03 < 256 ∧
  m.m10 < 256 ∧ m.m11 < 256 ∧ m.m12 < 256 ∧ m.m13 < 256 ∧
  m.m20 < 256 ∧ m.m21 < 256 ∧ m.m22 < 256 ∧ m.m23 < 256 ∧
  m.m30 < 256 ∧ m.m31 < 256 ∧ m.m32 < 256 ∧ m.m33 < 256

/-! ## Helper lemmas -/

set_option maxRecDepth 4096

theorem getLastD_append_replicate (l : List Nat) (k v d : Nat) (hk : k ≠ 0) :
    (l ++ List.replicate k v).getLastD d = v := by
  induction l with
  | nil =>
    cases k with
    | zero => exact absurd rfl hk
    | succ n =>
      induction n with
      | zero => rfl
      | succ m ih => simpa [List.replicate_succ] using ih
  | cons a rest ih =>
    cases rest with
    | nil =>
      cases k with
      | zero => exact absurd rfl hk
      | succ n => simpa using ih
    | cons b r2 => simpa using ih

theorem validator_ok_iff (bytes : List Nat) (block_size : Nat) :
    has_valid_pkcs_padding bytes block_size = Except.ok () ↔
      (bytes ≠ [] ∧ bytes.getLastD 0 ≠ 0 ∧ bytes.getLastD 0 ≤ block_size ∧
       bytes.getLastD 0 ≤ bytes.length ∧
       ∀ b ∈ bytes.drop (bytes.length - bytes.getLastD 0), b = bytes.getLastD 0) := by
  unfold has_valid_pkcs_padding
  constructor
  · intro h
    by_cases h0 : bytes.isEmpty
    · rw [if_pos h0] at h; exact Except.noConfusion h
    · rw [if_neg h0] at h
      by_cases h1 : bytes.getLastD 0 = 0 ∨ block_size < bytes.getLastD 0
      · rw [if_pos h1] at h; exact Except.noConfusion h
      · rw [if_neg h1] at h
        push_neg at h1
        by_cases h2 : bytes.length < bytes.getLastD 0
        · rw [if_pos h2] at h; exact Except.noConfusion h
        · rw [if_neg h2] at h
          by_cases h3 : (bytes.drop (bytes.length - bytes.getLastD 0)).all
              (fun b => b == bytes.getLastD 0)
          · refine ⟨by simpa [List.isEmpty_iff] using h0, h1.1, by omega, by omega, ?_⟩
            intro b hb
            simpa using (List.all_eq_true.mp h3) b hb
          · rw [if_neg h3] at h; exact Except.noConfusion h
  · rintro ⟨hne, hv0, hvbs, hvlen, hall⟩
    rw [if_neg (by simpa [List.isEmpty_iff] using hne)]
    rw [if_neg (by push_neg; exact ⟨hv0, by omega⟩)]
    rw [if_neg (by omega)]
    rw [if_pos (List.all_eq_true.mpr fun b hb => by simpa using hall b hb)]

theorem validator_dichotomy (bytes : List Nat) (block_size : Nat) :
    has_valid_pkcs_padding bytes block_size = Except.ok () ∨
      has_valid_pkcs_padding bytes block_size = Except.error AESError.PaddingError := by
  unfold has_valid_pkcs_padding
  by_cases h0 : bytes.isEmpty
  · rw [if_pos h0]; exact Or.inr rfl
  · rw [if_neg h0]
    by_cases h1 : bytes.getLastD 0 = 0 ∨ block_size < bytes.getLastD 0
    · rw [if_pos h1]; exact Or.inr rfl
    · rw [if_neg h1]
      by_cases h2 : bytes.length < bytes.getLastD 0
      · rw [if_pos h2]; exact Or.inr rfl
      · rw [if_neg h2]
        by_cases h3 : (bytes.drop (bytes.length - bytes.getLastD 0)).all
            (fun b => b == bytes.getLastD 0)
        · rw [if_pos h3]; exact Or.inl rfl
        · rw [if_neg h3]; exact Or.inr rfl

theorem pkcs_padding_of_mod_ne_zero (l : List Nat) (n : Nat)
    (h : l.length % 256 % n ≠ 0) :
    pkcs_padding l n
      = l ++ List.replicate (n - l.length % 256 % n) (n - l.length % 256 % n) := by
  simp [pkcs_padding, h]

theorem pkcs_padding_of_mod_eq_zero (l : List Nat) (n : Nat)
    (h : l.length % 256 % n = 0) :
    pkcs_padding l n = l := by
  simp [pkcs_padding, h]

/-! ## C3: pad contract -/

/-- C3 counterexample: for a 256-byte buffer and block size 10 the claim
demands exactly `10 - 256 % 10 = 4` appended padding bytes, but the
source casts the length to `u8` (`len as u8`), obtains remainder 0, and
returns the buffer unchanged. -/
theorem c3_pad_contract_counterexample :
    pkcs_padding (List.replicate 256 0) 10 = List.replicate 256 0 ∧ (256 : Nat) % 10 = 6 := by
  refine ⟨pkcs_padding_of_mod_eq_zero _ _ (by simp), by decide⟩

/-- C3 amended: the pad contract holds with the buffer length reduced
modulo 256 (the `u8` cast of the source): for every block size in 1..255,
the buffer is returned unchanged when `(len mod 256) mod blockSize = 0`,
and otherwise gains exactly `blockSize - (len mod 256) mod blockSize`
appended bytes, each equal to that count.  For buffers shorter than 256
bytes this coincides with the original claim. -/
theorem c3_pad_contract_amended (l : List Nat) (n : Nat) (h1 : 1 ≤ n) (h2 : n ≤ 255) :
    (l.length % 256 % n = 0 → pkcs_padding l n = l) ∧
    (l.length % 256 % n ≠ 0 →
      (pkcs_padding l n).length = l.length + (n - l.length % 256 % n) ∧
      (pkcs_padding l n).take l.length = l ∧
      ∀ b ∈ (pkcs_padding l n).drop l.length, b = n - l.length % 256 % n) := by
  refine ⟨pkcs_padding_of_mod_eq_zero l n, ?_⟩
  intro h
  rw [pkcs_padding_of_mod_ne_zero l n h]
  refine ⟨by simp, List.take_left l _, ?_⟩
  intro b hb
  rw [List.drop_left] at hb
  exact List.eq_of_mem_replicate hb

theorem c3_pad_contract_amended_witness :
    (pkcs_padding [0, 0, 0] 16).length = [0, 0, 0].length + (16 - [0, 0, 0].length % 256 % 16) ∧
    (pkcs_padding [0, 0, 0] 16).take [0, 0, 0].length = [0, 0, 0] ∧
    ∀ b ∈ (pkcs_padding [0, 0, 0] 16).drop [0, 0, 0].length,
      b = 16 - [0, 0, 0].length % 256 % 16 :=
  (c3_pad_contract_amended [0, 0, 0] 16 (by decide) (by decide)).2 (by decide)

/-! ## C5: validator failure conditions -/

/-- C5: `has_valid_pkcs_padding` returns `PaddingError` (it is a total
function into `Except` and cannot panic) exactly when the buffer is
empty, the last byte `v` is zero, `v` exceeds the block size, fewer than
`v` bytes remain, or one of the last `v` bytes differs from `v`; in every
other case it succeeds. -/
theorem c5_validator_failure_conditions (bytes : List Nat) (block_size : Nat) :
    (has_valid_pkcs_padding bytes block_size = Except.error AESError.PaddingError ↔
      (bytes = [] ∨ bytes.getLastD 0 = 0 ∨ block_size < bytes.getLastD 0 ∨
        bytes.length < bytes.getLastD 0 ∨
        ∃ b ∈ bytes.drop (bytes.length - bytes.getLastD 0), b ≠ bytes.getLastD 0)) ∧
    (has_valid_pkcs_padding bytes block_size = Except.ok () ↔
      ¬(bytes = [] ∨ bytes.getLastD 0 = 0 ∨ block_size < bytes.getLastD 0 ∨
        bytes.length < bytes.getLastD 0 ∨
        ∃ b ∈ bytes.drop (bytes.length - bytes.getLastD 0), b ≠ bytes.getLastD 0)) := by
  have hok := validator_ok_iff bytes block_size
  have key : (bytes ≠ [] ∧ bytes.getLastD 0 ≠ 0 ∧ bytes.getLastD 0 ≤ block_size ∧
       bytes.getLastD 0 ≤ bytes.length ∧
       ∀ b ∈ bytes.drop (bytes.length - bytes.getLastD 0), b = bytes.getLastD 0) ↔
      ¬(bytes = [] ∨ bytes.getLastD 0 = 0 ∨ block_size < bytes.getLastD 0 ∨
        bytes.length < bytes.getLastD 0 ∨
        ∃ b ∈ bytes.drop (bytes.length - bytes.getLastD 0), b ≠ bytes.getLastD 0) := by
    constructor
    · rintro ⟨e1, e2, e3, e4, e5⟩
      rintro (h | h | h | h | ⟨b, hb, hbne⟩)
      · exact e1 h
      · exact e2 h
      · omega
      · omega
      · exact hbne (e5 b hb)
    · intro hD
      push_neg at hD
      obtain ⟨d1, d2, d3, d4, d5⟩ := hD
      exact ⟨d1, d2, by omega, by omega, d5⟩
  constructor
  · constructor
    · intro h
      by_contra hD
      have h2 := hok.mpr (key.mpr hD)
      rw [h] at h2
      exact Except.noConfusion h2
    · intro hD
      rcases validator_dichotomy bytes block_size with hOk | hErr
      · exact absurd hD (by simpa using key.mp (hok.mp hOk))
      · exact hErr
  · rw [hok]
    exact key

/-! ## C4: pad-then-validate -/

/-- C4 counterexample: for the 256-byte zero buffer and block size 10 the
true length satisfies `256 mod 10 = 6 ≠ 0`, so the claim demands that
validating the padded buffer succeed; but the source casts the length to
`u8`, appends nothing, and validation of the unchanged buffer (last byte
0) fails with `PaddingError`. -/
theorem c4_pad_validate_counterexample :
    (256 : Nat) % 10 ≠ 0 ∧
    has_valid_pkcs_padding (pkcs_padding (List.replicate 256 0) 10) 10
      = Except.error AESError.PaddingError := by
  refine ⟨by decide, ?_⟩
  rw [pkcs_padding_of_mod_eq_zero _ _ (by simp)]
  have hlast : (List.replicate 256 (0 : Nat)).getLastD 0 = 0 := by
    simpa using getLastD_append_replicate [] 256 0 0 (by omega)
  unfold has_valid_pkcs_padding
  rw [if_neg (by simp [List.isEmpty_iff]), if_pos (Or.inl hlast)]

/-- C4 amended: with the buffer length reduced modulo 256 (the `u8` cast
of the source), `validatePadding(pad(buffer, n), n)` succeeds for every
block size `n` in 1..255 whenever `(len mod 256) mod n ≠ 0`, and when
`(len mod 256) mod n = 0` the pad returns the buffer unchanged (and the
composed validation is not guaranteed to succeed). -/
theorem c4_pad_validate_amended (l : List Nat) (n : Nat) (h1 : 1 ≤ n) (h2 : n ≤ 255) :
    (l.length % 256 % n ≠ 0 →
      has_valid_pkcs_padding (pkcs_padding l n) n = Except.ok ()) ∧
    (l.length % 256 % n = 0 → pkcs_padding l n = l) := by
  refine ⟨?_, pkcs_padding_of_mod_eq_zero l n⟩
  intro h
  have hrn : l.length % 256 % n < n := Nat.mod_lt _ (by omega)
  rw [pkcs_padding_of_mod_ne_zero l n h]
  set d := n - l.length % 256 % n with hd
  have hd1 : 1 ≤ d := by omega
  have hdn : d ≤ n := by omega
  have hlast : (l ++ List.replicate d d).getLastD 0 = d :=
    getLastD_append_replicate l d d 0 (by omega)
  have hlen : (l ++ List.replicate d d).length = l.length + d := by simp
  rw [validator_ok_iff]
  refine ⟨?_, ?_, ?_, ?_, ?_⟩
  · simp only [ne_eq, List.append_eq_nil, List.replicate_eq_nil]
    rintro ⟨-, hdz⟩
    omega
  · omega
  · omega
  · omega
  · intro b hb
    rw [hlast, hlen] at hb
    have hdrop : l.length + d - d = l.length := by omega
    rw [hdrop, List.drop_left] at hb
    rw [hlast]
    exact List.eq_of_mem_replicate hb

theorem c4_pad_validate_amended_witness :
    ([0, 0, 0].length % 256 % 16 ≠ 0 →
      has_valid_pkcs_padding (pkcs_padding [0, 0, 0] 16) 16 = Except.ok ()) ∧
    ([0, 0, 0].length % 256 % 16 = 0 → pkcs_padding [0, 0, 0] 16 = [0, 0, 0]) :=
  c4_pad_validate_amended [0, 0, 0] 16 (by decide) (by decide)

/-! ## C2: key-schedule determinism and known answer -/

theorem key_expansion_prefix (ws : List AESWord) (n : Nat) :
    ∃ rest, key_expansion ws n = ws ++ rest := by
  induction n generalizing ws with
  | zero => exact ⟨[], by simp [key_expansion]⟩
  | succ m ih =>
    obtain ⟨r, hr⟩ := ih (ws ++ [next_word ws])
    exact ⟨[next_word ws] ++ r, by simp [key_expansion, hr]⟩

theorem key_expansion_length (ws : List AESWord) (n : Nat) :
    (key_expansion ws n).length = ws.length + n := by
  induction n generalizing ws with
  | zero => simp [key_expansion]
  | succ m ih =>
    rw [key_expansion, ih]
    simp
    omega

theorem bytes_of_words_append (xs ys : List AESWord) :
    bytes_of_words (xs ++ ys) = bytes_of_words xs ++ bytes_of_words ys := by
  induction xs with
  | nil => rfl
  | cons w rest ih => simp [bytes_of_words, ih]

theorem bytes_of_words_length (xs : List AESWord) :
    (bytes_of_words xs).length = 4 * xs.length := by
  induction xs with
  | nil => rfl
  | cons w rest ih =>
    simp [bytes_of_words, ih]
    omega

theorem words_of_bytes_length : ∀ l : List Nat, (words_of_bytes l).length = l.length / 4
  | a :: b :: c :: d :: rest => by
    show (AESWord.mk a b c d :: words_of_bytes rest).length
      = (a :: b :: c :: d :: rest).length / 4
    simp [words_of_bytes_length rest]
    omega
  | [] => by rw [show words_of_bytes [] = [] from rfl]; simp
  | [a] => by rw [show words_of_bytes [a] = [] from rfl]; simp
  | [a, b] => by rw [show words_of_bytes [a, b] = [] from rfl]; simp
  | [a, b, c] => by rw [show words_of_bytes [a, b, c] = [] from rfl]; simp

theorem bytes_of_words_of_bytes :
    ∀ l : List Nat, l.length % 4 = 0 → bytes_of_words (words_of_bytes l) = l
  | a :: b :: c :: d :: rest => by
    intro h
    show bytes_of_words (AESWord.mk a b c d :: words_of_bytes rest)
      = a :: b :: c :: d :: rest
    simp only [List.length_cons] at h
    simp [bytes_of_words, bytes_of_words_of_bytes rest (by omega)]
  | [] => by intro h; rfl
  | [a] => by intro h; simp at h
  | [a, b] => by intro h; simp at h
  | [a, b, c] => by intro h; simp at h

/-- C2: the round-key sequence of a 16-byte key is a fixed pure function
of the key, 11 sixteen-byte round keys long (176 bytes), beginning with
the key itself; and for the ASCII key `"Thats my Kung Fu"` it equals the
published AES-128 expansion test vector, whose round key 1 is hex
`e232fcf191129188b159e4e6d679a293`. -/
theorem c2_key_schedule (key : List Nat) (hk : key.length = 16) :
    (aes_128_get_round_keys key).length = 176 ∧
    (aes_128_get_round_keys key).take 16 = key ∧
    aes_128_get_round_keys kung_fu_key =
      [0x54, 0x68, 0x61, 0x74, 0x73, 0x20, 0x6d, 0x79,
       0x20, 0x4b, 0x75, 0x6e, 0x67, 0x20, 0x46, 0x75,
       0xe2, 0x32, 0xfc, 0xf1, 0x91, 0x12, 0x91, 0x88,
       0xb1, 0x59, 0xe4, 0xe6, 0xd6, 0x79, 0xa2, 0x93,
       0x56, 0x08, 0x20, 0x07, 0xc7, 0x1a, 0xb1, 0x8f,
       0x76, 0x43, 0x55, 0x69, 0xa0, 0x3a, 0xf7, 0xfa,
       0xd2, 0x60, 0x0d, 0xe7, 0x15, 0x7a, 0xbc, 0x68,
       0x63, 0x39, 0xe9, 0x01, 0xc3, 0x03, 0x1e, 0xfb,
       0xa1, 0x12, 0x02, 0xc9, 0xb4, 0x68, 0xbe, 0xa1,
       0xd7, 0x51, 0x57, 0xa0, 0x14, 0x52, 0x49, 0x5b,
       0xb1, 0x29, 0x3b, 0x33, 0x05, 0x41, 0x85, 0x92,
       0xd2, 0x10, 0xd2, 0x32, 0xc6, 0x42, 0x9b, 0x69,
       0xbd, 0x3d, 0xc2, 0x87, 0xb8, 0x7c, 0x47, 0x15,
       0x6a, 0x6c, 0x95, 0x27, 0xac, 0x2e, 0x0e, 0x4e,
       0xcc, 0x96, 0xed, 0x16, 0x74, 0xea, 0xaa, 0x03,
       0x1e, 0x86, 0x3f, 0x24, 0xb2, 0xa8, 0x31, 0x6a,
       0x8e, 0x51, 0xef, 0x21, 0xfa, 0xbb, 0x45, 0x22,
       0xe4, 0x3d, 0x7a, 0x06, 0x56, 0x95, 0x4b, 0x6c,
       0xbf, 0xe2, 0xbf, 0x90, 0x45, 0x59, 0xfa, 0xb2,
       0xa1, 0x64, 0x80, 0xb4, 0xf7, 0xf1, 0xcb, 0xd8,
       0x28, 0xfd, 0xde, 0xf8, 0x6d, 0xa4, 0x24, 0x4a,
       0xcc, 0xc0, 0xa4, 0xfe, 0x3b, 0x31, 0x6f, 0x26] := by
  refine ⟨?_, ?_, ?_⟩
  · rw [aes_128_get_round_keys, bytes_of_words_length, key_expansion_length,
      words_of_bytes_length, hk]
  · rw [aes_128_get_round_keys]
    obtain ⟨rest, hr⟩ := key_expansion_prefix (words_of_bytes key) 40
    rw [hr, bytes_of_words_append, bytes_of_words_of_bytes key (by omega)]
    rw [← hk]
    exact List.take_left key _
  · rfl

theorem c2_key_schedule_witness :
    (aes_128_get_round_keys kung_fu_key).length = 176 ∧
    (aes_128_get_round_keys kung_fu_key).take 16 = kung_fu_key ∧
    aes_128_get_round_keys kung_fu_key =
      [0x54, 0x68, 0x61, 0x74, 0x73, 0x20, 0x6d, 0x79,
       0x20, 0x4b, 0x75, 0x6e, 0x67, 0x20, 0x46, 0x75,
       0xe2, 0x32, 0xfc, 0xf1, 0x91, 0x12, 0x91, 0x88,
       0xb1, 0x59, 0xe4, 0xe6, 0xd6, 0x79, 0xa2, 0x93,
       0x56, 0x08, 0x20, 0x07, 0xc7, 0x1a, 0xb1, 0x8f,
       0x76, 0x43, 0x55, 0x69, 0xa0, 0x3a, 0xf7, 0xfa,
       0xd2, 0x60, 0x0d, 0xe7, 0x15, 0x7a, 0xbc, 0x68,
       0x63, 0x39, 0xe9, 0x01, 0xc3, 0x03, 0x1e, 0xfb,
       0xa1, 0x12, 0x02, 0xc9, 0xb4, 0x68, 0xbe, 0xa1,
       0xd7, 0x51, 0x57, 0xa0, 0x14, 0x52, 0x49, 0x5b,
       0xb1, 0x29, 0x3b, 0x33, 0x05, 0x41, 0x85, 0x92,
       0xd2, 0x10, 0xd2, 0x32, 0xc6, 0x42, 0x9b, 0x69,
       0xbd, 0x3d, 0xc2, 0x87, 0xb8, 0x7c, 0x47, 0x15,
       0x6a, 0x6c, 0x95, 0x27, 0xac, 0x2e, 0x0e, 0x4e,
       0xcc, 0x96, 0xed, 0x16, 0x74, 0xea, 0xaa, 0x03,
       0x1e, 0x86, 0x3f, 0x24, 0xb2, 0xa8, 0x31, 0x6a,
       0x8e, 0x51, 0xef, 0x21, 0xfa, 0xbb, 0x45, 0x22,
       0xe4, 0x3d, 0x7a, 0x06, 0x56, 0x95, 0x4b, 0x6c,
       0xbf, 0xe2, 0xbf, 0x90, 0x45, 0x59, 0xfa, 0xb2,
       0xa1, 0x64, 0x80, 0xb4, 0xf7, 0xf1, 0xcb, 0xd8,
       0x28, 0xfd, 0xde, 0xf8, 0x6d, 0xa4, 0x24, 0x4a,
       0xcc, 0xc0, 0xa4, 0xfe, 0x3b, 0x31, 0x6f, 0x26] :=
  c2_key_schedule kung_fu_key (by decide)

/-! ## C7: ECB known-answer test -/

set_option maxHeartbeats 400000

/-! ## C8: key-size validation -/

/-- C8: a key whose byte length is not 16, 24 or 32 makes both `encode`
and `decode` fail with `InvalidKeySize` before any transform runs, and a
24- or 32-byte key reaches the explicit `unimplemented!` fault in every
mode: it is never truncated or extended and never produces a
ciphertext. -/
theorem c8_key_size_validation (key_bytes text : List Nat) (mode : AESMode) :
    (key_bytes.length ≠ 16 → key_bytes.length ≠ 24 → key_bytes.length ≠ 32 →
      AES.encode text key_bytes mode
        = AESOutcome.err (AESError.InvalidKeySize key_bytes.length) ∧
      AES.decode text key_bytes mode
        = AESOutcome.err (AESError.InvalidKeySize key_bytes.length)) ∧
    (key_bytes.length = 24 ∨ key_bytes.length = 32 →
      AES.encode text key_bytes mode = AESOutcome.panic ∧
      AES.decode text key_bytes mode = AESOutcome.panic) := by
  constructor
  · intro h16 h24 h32
    have hk : AESKey.from_bytes key_bytes
        = Except.error (AESError.InvalidKeySize key_bytes.length) := by
      unfold AESKey.from_bytes
      rw [if_neg h16, if_neg h24, if_neg h32]
    constructor
    · unfold AES.encode; rw [hk]
    · unfold AES.decode; rw [hk]
  · rintro (h | h)
    · have hk : AESKey.from_bytes key_bytes = Except.ok (AESKey.aes192 key_bytes) := by
        unfold AESKey.from_bytes
        rw [if_neg (by omega), if_pos h]
      constructor
      · unfold AES.encode; rw [hk]; cases mode <;> rfl
      · unfold AES.decode; rw [hk]; cases mode <;> rfl
    · have hk : AESKey.from_bytes key_bytes = Except.ok (AESKey.aes256 key_bytes) := by
        unfold AESKey.from_bytes
        rw [if_neg (by omega), if_neg (by omega), if_pos h]
      constructor
      · unfold AES.encode; rw [hk]; cases mode <;> rfl
      · unfold AES.decode; rw [hk]; cases mode <;> rfl

theorem c8_key_size_validation_witness :
    AES.encode [] (List.replicate 5 0) AESMode.ECB
      = AESOutcome.err (AESError.InvalidKeySize 5) ∧
    AES.encode [] (List.replicate 24 0) AESMode.ECB = AESOutcome.panic := by
  constructor
  · have h := (c8_key_size_validation (List.replicate 5 0) [] AESMode.ECB).1
      (by decide) (by decide) (by decide)
    simpa using h.1
  · exact ((c8_key_size_validation (List.replicate 24 0) [] AESMode.ECB).2
      (Or.inl (by decide))).1

/-! ## C7: ECB known-answer test -/

set_option maxRecDepth 200000

set_option maxHeartbeats 2000000

/-- C7 counterexample: the ciphertext does consist of two identical
16-byte blocks, but each block, read as a big-endian number, is
`0x29c3505f571420f6402299b31a02d73a` and differs from the 31-hex-digit
value `29c3505f571420f6402299b31a02d73` stated by the claim. -/
theorem c7_ecb_known_answer_counterexample :
    ∃ b : List Nat,
      AES.encode two_one_nine_two kung_fu_key AESMode.ECB = AESOutcome.ok (b ++ b) ∧
      bytes_be_nat b ≠ 0x29c3505f571420f6402299b31a02d73 := by
  refine ⟨[0x29, 0xc3, 0x50, 0x5f, 0x57, 0x14, 0x20, 0xf6,
           0x40, 0x22, 0x99, 0xb3, 0x1a, 0x02, 0xd7, 0x3a], by decide, by decide⟩

/-- C7 amended: encoding `"Two One Nine TwoTwo One Nine Two"` under the
key `"Thats my Kung Fu"` in ECB mode yields two identical 16-byte blocks,
each equal to hex `29c3505f571420f6402299b31a02d73a` (the value stated by
the claim is missing its final hex digit). -/
theorem c7_ecb_known_answer_amended :
    ∃ b : List Nat, b.length = 16 ∧
      AES.encode two_one_nine_two kung_fu_key AESMode.ECB = AESOutcome.ok (b ++ b) ∧
      bytes_be_nat b = 0x29c3505f571420f6402299b31a02d73a := by
  refine ⟨[0x29, 0xc3, 0x50, 0x5f, 0x57, 0x14, 0x20, 0xf6,
           0x40, 0x22, 0x99, 0xb3, 0x1a, 0x02, 0xd7, 0x3a], by decide, by decide, by decide⟩


/-! ## Galois-field lemmas for the round-trip proofs -/

theorem nat_xor_left_comm (a b c : Nat) : a ^^^ (b ^^^ c) = b ^^^ (a ^^^ c) := by
  rw [← Nat.xor_assoc, Nat.xor_comm a b, Nat.xor_assoc]

theorem gmul_loop_succ (n p a b : Nat) :
    gmul_loop (n + 1) p a b
      = gmul_loop n (if b &&& 1 ≠ 0 then p ^^^ a else p)
          (if a &&& 0x80 ≠ 0 then a * 2 % 256 ^^^ 0x1b else a * 2 % 256) (b / 2) := rfl

theorem gmul_loop_linear : ∀ n p q a u v : Nat,
    gmul_loop n (p ^^^ q) a (u ^^^ v) = gmul_loop n p a u ^^^ gmul_loop n q a v := by
  intro n
  induction n with
  | zero => intro p q a u v; rfl
  | succ m ih =>
    intro p q a u v
    rw [gmul_loop_succ, gmul_loop_succ, gmul_loop_succ, Nat.xor_div_two]
    have hx : (u ^^^ v) &&& 1 = (u &&& 1) ^^^ (v &&& 1) := Nat.and_xor_distrib_right
    rw [hx, Nat.and_one_is_mod, Nat.and_one_is_mod]
    rcases Nat.mod_two_eq_zero_or_one u with hu | hu <;>
      rcases Nat.mod_two_eq_zero_or_one v with hv | hv
    · rw [hu, hv, if_neg (show ¬(((0 : Nat) ^^^ 0) ≠ 0) by decide),
        if_neg (show ¬((0 : Nat) ≠ 0) by decide),
        if_neg (show ¬((0 : Nat) ≠ 0) by decide)]
      exact ih p q _ (u / 2) (v / 2)
    · rw [hu, hv, if_pos (show ((0 : Nat) ^^^ 1) ≠ 0 by decide),
        if_neg (show ¬((0 : Nat) ≠ 0) by decide),
        if_pos (show (1 : Nat) ≠ 0 by decide)]
      rw [Nat.xor_assoc]
      exact ih p (q ^^^ a) _ (u / 2) (v / 2)
    · rw [hu, hv, if_pos (show ((1 : Nat) ^^^ 0) ≠ 0 by decide),
        if_pos (show (1 : Nat) ≠ 0 by decide),
        if_neg (show ¬((0 : Nat) ≠ 0) by decide)]
      rw [show (p ^^^ q) ^^^ a = (p ^^^ a) ^^^ q by
        rw [Nat.xor_assoc, Nat.xor_comm q a, ← Nat.xor_assoc]]
      exact ih (p ^^^ a) q _ (u / 2) (v / 2)
    · rw [hu, hv, if_neg (show ¬(((1 : Nat) ^^^ 1) ≠ 0) by decide),
        if_pos (show (1 : Nat) ≠ 0 by decide),
        if_pos (show (1 : Nat) ≠ 0 by decide)]
      rw [show p ^^^ q = (p ^^^ a) ^^^ (q ^^^ a) from by
        rw [Nat.xor_assoc p a, nat_xor_left_comm a q a, Nat.xor_self, Nat.xor_zero]]
      exact ih (p ^^^ a) (q ^^^ a) _ (u / 2) (v / 2)

theorem galois_multiplication_linear (a u v : Nat) :
    galois_multiplication a (u ^^^ v)
      = galois_multiplication a u ^^^ galois_multiplication a v := by
  have h := gmul_loop_linear 8 0 0 a u v
  simpa using h

theorem xor_lt_256 {x y : Nat} (hx : x < 256) (hy : y < 256) : x ^^^ y < 256 := by
  have h : x ^^^ y < 2 ^ 8 := Nat.xor_lt_two_pow (by omega) (by omega)
  omega

theorem gmul_loop_lt : ∀ n p a b : Nat, p < 256 → a < 256 → gmul_loop n p a b < 256 := by
  intro n
  induction n with
  | zero => intro p a b hp ha; exact hp
  | succ m ih =>
    intro p a b hp ha
    rw [gmul_loop_succ]
    apply ih
    · split
      · exact xor_lt_256 hp ha
      · exact hp
    · split
      · exact xor_lt_256 (Nat.mod_lt _ (by omega)) (by omega)
      · exact Nat.mod_lt _ (by omega)

theorem galois_multiplication_lt (a b : Nat) (ha : a < 256) :
    galois_multiplication a b < 256 :=
  gmul_loop_lt 8 0 a b (by omega) ha

/-! ## S-box lemmas -/

theorem sbox_length : S_BOX.length = 256 := by decide

theorem inv_sbox_length : INVERSE_S_BOX.length = 256 := by decide

theorem sbox_at_lt (b : Nat) : sbox_at b < 256 := by
  by_cases h : b < 256
  · exact (by decide : ∀ x < 256, sbox_at x < 256) b h
  · unfold sbox_at
    rw [List.getD_eq_default _ _ (by rw [sbox_length]; omega)]
    omega

theorem inv_sbox_at_lt (b : Nat) : inv_sbox_at b < 256 := by
  by_cases h : b < 256
  · exact (by decide : ∀ x < 256, inv_sbox_at x < 256) b h
  · unfold inv_sbox_at
    rw [List.getD_eq_default _ _ (by rw [inv_sbox_length]; omega)]
    omega

theorem inv_sbox_sbox (b : Nat) (h : b < 256) : inv_sbox_at (sbox_at b) = b :=
  (by decide : ∀ x < 256, inv_sbox_at (sbox_at x) = x) b h

/-! ## Mix-columns inverse -/

theorem xor16_regroup (a0 a1 a2 a3 b0 b1 b2 b3 c0 c1 c2 c3 d0 d1 d2 d3 : Nat) :
    (a0 ^^^ a1 ^^^ a2 ^^^ a3) ^^^ (b0 ^^^ b1 ^^^ b2 ^^^ b3)
      ^^^ (c0 ^^^ c1 ^^^ c2 ^^^ c3) ^^^ (d0 ^^^ d1 ^^^ d2 ^^^ d3)
      = (a0 ^^^ b0 ^^^ c0 ^^^ d0) ^^^ (a1 ^^^ b1 ^^^ c1 ^^^ d1)
        ^^^ (a2 ^^^ b2 ^^^ c2 ^^^ d2) ^^^ (a3 ^^^ b3 ^^^ c3 ^^^ d3) := by
  ac_rfl

theorem mix_compose_r0_c0 : ∀ x < 256,
    galois_multiplication 0xe (galois_multiplication 2 x)
      ^^^ galois_multiplication 0xb (galois_multiplication 1 x)
      ^^^ galois_multiplication 0xd (galois_multiplication 1 x)
      ^^^ galois_multiplication 0x9 (galois_multiplication 3 x) = x := by decide

theorem mix_compose_r0_c1 : ∀ x < 256,
    galois_multiplication 0xe (galois_multiplication 3 x)
      ^^^ galois_multiplication 0xb (galois_multiplication 2 x)
      ^^^ galois_multiplication 0xd (galois_multiplication 1 x)
      ^^^ galois_multiplication 0x9 (galois_multiplication 1 x) = 0 := by decide

theorem mix_compose_r0_c2 : ∀ x < 256,
    galois_multiplication 0xe (galois_multiplication 1 x)
      ^^^ galois_multiplication 0xb (galois_multiplication 3 x)
      ^^^ galois_multiplication 0xd (galois_multiplication 2 x)
      ^^^ galois_multiplication 0x9 (galois_multiplication 1 x) = 0 := by decide

theorem mix_compose_r0_c3 : ∀ x < 256,
    galois_multiplication 0xe (galois_multiplication 1 x)
      ^^^ galois_multiplication 0xb (galois_multiplication 1 x)
      ^^^ galois_multiplication 0xd (galois_multiplication 3 x)
      ^^^ galois_multiplication 0x9 (galois_multiplication 2 x) = 0 := by decide

theorem mix_compose_r1_c0 : ∀ x < 256,
    galois_multiplication 0x9 (galois_multiplication 2 x)
      ^^^ galois_multiplication 0xe (galois_multiplication 1 x)
      ^^^ galois_multiplication 0xb (galois_multiplication 1 x)
      ^^^ galois_multiplication 0xd (galois_multiplication 3 x) = 0 := by decide

theorem mix_compose_r1_c1 : ∀ x < 256,
    galois_multiplication 0x9 (galois_multiplication 3 x)
      ^^^ galois_multiplication 0xe (galois_multiplication 2 x)
      ^^^ galois_multiplication 0xb (galois_multiplication 1 x)
      ^^^ galois_multiplication 0xd (galois_multiplication 1 x) = x := by decide

theorem mix_compose_r1_c2 : ∀ x < 256,
    galois_multiplication 0x9 (galois_multiplication 1 x)
      ^^^ galois_multiplication 0xe (galois_multiplication 3 x)
      ^^^ galois_multiplication 0xb (galois_multiplication 2 x)
      ^^^ galois_multiplication 0xd (galois_multiplication 1 x) = 0 := by decide

theorem mix_compose_r1_c3 : ∀ x < 256,
    galois_multiplication 0x9 (galois_multiplication 1 x)
      ^^^ galois_multiplication 0xe (galois_multiplication 1 x)
      ^^^ galois_multiplication 0xb (galois_multiplication 3 x)
      ^^^ galois_multiplication 0xd (galois_multiplication 2 x) = 0 := by decide

theorem mix_compose_r2_c0 : ∀ x < 256,
    galois_multiplication 0xd (galois_multiplication 2 x)
      ^^^ galois_multiplication 0x9 (galois_multiplication 1 x)
      ^^^ galois_multiplication 0xe (galois_multiplication 1 x)
      ^^^ galois_multiplication 0xb (galois_multiplication 3 x) = 0 := by decide

theorem mix_compose_r2_c1 : ∀ x < 256,
    galois_multiplication 0xd (galois_multiplication 3 x)
      ^^^ galois_multiplication 0x9 (galois_multiplication 2 x)
      ^^^ galois_multiplication 0xe (galois_multiplication 1 x)
      ^^^ galois_multiplication 0xb (galois_multiplication 1 x) = 0 := by decide

theorem mix_compose_r2_c2 : ∀ x < 256,
    galois_multiplication 0xd (galois_multiplication 1 x)
      ^^^ galois_multiplication 0x9 (galois_multiplication 3 x)
      ^^^ galois_multiplication 0xe (galois_multiplication 2 x)
      ^^^ galois_multiplication 0xb (galois_multiplication 1 x) = x := by decide

theorem mix_compose_r2_c3 : ∀ x < 256,
    galois_multiplication 0xd (galois_multiplication 1 x)
      ^^^ galois_multiplication 0x9 (galois_multiplication 1 x)
      ^^^ galois_multiplication 0xe (galois_multiplication 3 x)
      ^^^ galois_multiplication 0xb (galois_multiplication 2 x) = 0 := by decide

theorem mix_compose_r3_c0 : ∀ x < 256,
    galois_multiplication 0xb (galois_multiplication 2 x)
      ^^^ galois_multiplication 0xd (galois_multiplication 1 x)
      ^^^ galois_multiplication 0x9 (galois_multiplication 1 x)
      ^^^ galois_multiplication 0xe (galois_multiplication 3 x) = 0 := by decide

theorem mix_compose_r3_c1 : ∀ x < 256,
    galois_multiplication 0xb (galois_multiplication 3 x)
      ^^^ galois_multiplication 0xd (galois_multiplication 2 x)
      ^^^ galois_multiplication 0x9 (galois_multiplication 1 x)
      ^^^ galois_multiplication 0xe (galois_multiplication 1 x) = 0 := by decide

theorem mix_compose_r3_c2 : ∀ x < 256,
    galois_multiplication 0xb (galois_multiplication 1 x)
      ^^^ galois_multiplication 0xd (galois_multiplication 3 x)
      ^^^ galois_multiplication 0x9 (galois_multiplication 2 x)
      ^^^ galois_multiplication 0xe (galois_multiplication 1 x) = 0 := by decide

theorem mix_compose_r3_c3 : ∀ x < 256,
    galois_multiplication 0xb (galois_multiplication 1 x)
      ^^^ galois_multiplication 0xd (galois_multiplication 1 x)
      ^^^ galois_multiplication 0x9 (galois_multiplication 3 x)
      ^^^ galois_multiplication 0xe (galois_multiplication 2 x) = x := by decide

theorem inv_mix_entry_row0 (x0 x1 x2 x3 : Nat)
    (h0 : x0 < 256) (h1 : x1 < 256) (h2 : x2 < 256) (h3 : x3 < 256) :
    gmult_entry 0xe 0xb 0xd 0x9
      (gmult_entry 2 3 1 1 x0 x1 x2 x3) (gmult_entry 1 2 3 1 x0 x1 x2 x3)
      (gmult_entry 1 1 2 3 x0 x1 x2 x3) (gmult_entry 3 1 1 2 x0 x1 x2 x3) = x0 := by
  simp only [gmult_entry, Nat.zero_xor, galois_multiplication_linear]
  rw [xor16_regroup, mix_compose_r0_c0 x0 h0, mix_compose_r0_c1 x1 h1,
    mix_compose_r0_c2 x2 h2, mix_compose_r0_c3 x3 h3]
  simp

theorem inv_mix_entry_row1 (x0 x1 x2 x3 : Nat)
    (h0 : x0 < 256) (h1 : x1 < 256) (h2 : x2 < 256) (h3 : x3 < 256) :
    gmult_entry 0x9 0xe 0xb 0xd
      (gmult_entry 2 3 1 1 x0 x1 x2 x3) (gmult_entry 1 2 3 1 x0 x1 x2 x3)
      (gmult_entry 1 1 2 3 x0 x1 x2 x3) (gmult_entry 3 1 1 2 x0 x1 x2 x3) = x1 := by
  simp only [gmult_entry, Nat.zero_xor, galois_multiplication_linear]
  rw [xor16_regroup, mix_compose_r1_c0 x0 h0, mix_compose_r1_c1 x1 h1,
    mix_compose_r1_c2 x2 h2, mix_compose_r1_c3 x3 h3]
  simp

theorem inv_mix_entry_row2 (x0 x1 x2 x3 : Nat)
    (h0 : x0 < 256) (h1 : x1 < 256) (h2 : x2 < 256) (h3 : x3 < 256) :
    gmult_entry 0xd 0x9 0xe 0xb
      (gmult_entry 2 3 1 1 x0 x1 x2 x3) (gmult_entry 1 2 3 1 x0 x1 x2 x3)
      (gmult_entry 1 1 2 3 x0 x1 x2 x3) (gmult_entry 3 1 1 2 x0 x1 x2 x3) = x2 := by
  simp only [gmult_entry, Nat.zero_xor, galois_multiplication_linear]
  rw [xor16_regroup, mix_compose_r2_c0 x0 h0, mix_compose_r2_c1 x1 h1,
    mix_compose_r2_c2 x2 h2, mix_compose_r2_c3 x3 h3]
  simp

theorem inv_mix_entry_row3 (x0 x1 x2 x3 : Nat)
    (h0 : x0 < 256) (h1 : x1 < 256) (h2 : x2 < 256) (h3 : x3 < 256) :
    gmult_entry 0xb 0xd 0x9 0xe
      (gmult_entry 2 3 1 1 x0 x1 x2 x3) (gmult_entry 1 2 3 1 x0 x1 x2 x3)
      (gmult_entry 1 1 2 3 x0 x1 x2 x3) (gmult_entry 3 1 1 2 x0 x1 x2 x3) = x3 := by
  simp only [gmult_entry, Nat.zero_xor, galois_multiplication_linear]
  rw [xor16_regroup, mix_compose_r3_c0 x0 h0, mix_compose_r3_c1 x1 h1,
    mix_compose_r3_c2 x2 h2, mix_compose_r3_c3 x3 h3]
  simp

theorem inv_mix_columns_mix_columns (ig : Bool) (m : AESMat) (hm : MatBelow256 m) :
    inv_mix_columns ig (mix_columns ig m) = m := by
  cases ig with
  | true => rfl
  | false =>
    obtain ⟨x00, x01, x02, x03, x10, x11, x12, x13,
      x20, x21, x22, x23, x30, x31, x32, x33⟩ := m
    obtain ⟨h00, h01, h02, h03, h10, h11, h12, h13,
      h20, h21, h22, h23, h30, h31, h32, h33⟩ := hm
    show matrix_gmult INV_MIX_COLUMN_CT (matrix_gmult MIX_COLUMN_CT _) = _
    simp only [matrix_gmult, MIX_COLUMN_CT, INV_MIX_COLUMN_CT, AESMat.mk.injEq]
    refine ⟨?_, ?_, ?_, ?_, ?_, ?_, ?_, ?_, ?_, ?_, ?_, ?_, ?_, ?_, ?_, ?_⟩
    · exact inv_mix_entry_row0 x00 x10 x20 x30 h00 h10 h20 h30
    · exact inv_mix_entry_row0 x01 x11 x21 x31 h01 h11 h21 h31
    · exact inv_mix_entry_row0 x02 x12 x22 x32 h02 h12 h22 h32
    · exact inv_mix_entry_row0 x03 x13 x23 x33 h03 h13 h23 h33
    · exact inv_mix_entry_row1 x00 x10 x20 x30 h00 h10 h20 h30
    · exact inv_mix_entry_row1 x01 x11 x21 x31 h01 h11 h21 h31
    · exact inv_mix_entry_row1 x02 x12 x22 x32 h02 h12 h22 h32
    · exact inv_mix_entry_row1 x03 x13 x23 x33 h03 h13 h23 h33
    · exact inv_mix_entry_row2 x00 x10 x20 x30 h00 h10 h20 h30
    · exact inv_mix_entry_row2 x01 x11 x21 x31 h01 h11 h21 h31
    · exact inv_mix_entry_row2 x02 x12 x22 x32 h02 h12 h22 h32
    · exact inv_mix_entry_row2 x03 x13 x23 x33 h03 h13 h23 h33
    · exact inv_mix_entry_row3 x00 x10 x20 x30 h00 h10 h20 h30
    · exact inv_mix_entry_row3 x01 x11 x21 x31 h01 h11 h21 h31
    · exact inv_mix_entry_row3 x02 x12 x22 x32 h02 h12 h22 h32
    · exact inv_mix_entry_row3 x03 x13 x23 x33 h03 h13 h23 h33

/-! ## Block transform inverses and byte bounds -/

theorem inv_sub_bytes_sub_bytes (m : AESMat) (hm : MatBelow256 m) :
    inv_sub_bytes (sub_bytes m) = m := by
  obtain ⟨x00, x01, x02, x03, x10, x11, x12, x13,
    x20, x21, x22, x23, x30, x31, x32, x33⟩ := m
  obtain ⟨h00, h01, h02, h03, h10, h11, h12, h13,
    h20, h21, h22, h23, h30, h31, h32, h33⟩ := hm
  simp only [sub_bytes, inv_sub_bytes, AESMat.mk.injEq]
  exact ⟨inv_sbox_sbox _ h00, inv_sbox_sbox _ h01, inv_sbox_sbox _ h02, inv_sbox_sbox _ h03,
    inv_sbox_sbox _ h10, inv_sbox_sbox _ h11, inv_sbox_sbox _ h12, inv_sbox_sbox _ h13,
    inv_sbox_sbox _ h20, inv_sbox_sbox _ h21, inv_sbox_sbox _ h22, inv_sbox_sbox _ h23,
    inv_sbox_sbox _ h30, inv_sbox_sbox _ h31, inv_sbox_sbox _ h32, inv_sbox_sbox _ h33⟩

theorem inv_shift_rows_shift_rows (m : AESMat) : inv_shift_rows (shift_rows m) = m := by
  obtain ⟨x00, x01, x02, x03, x10, x11, x12, x13,
    x20, x21, x22, x23, x30, x31, x32, x33⟩ := m
  rfl

theorem xor_with_block_cancel (m o : AESMat) : xor_with_block (xor_with_block m o) o = m := by
  obtain ⟨x00, x01, x02, x03, x10, x11, x12, x13,
    x20, x21, x22, x23, x30, x31, x32, x33⟩ := m
  simp only [xor_with_block, AESMat.mk.injEq]
  refine ⟨?_, ?_, ?_, ?_, ?_, ?_, ?_, ?_, ?_, ?_, ?_, ?_, ?_, ?_, ?_, ?_⟩ <;>
    exact Nat.xor_cancel_right _ _

theorem add_round_key_cancel (rk : List Nat) (r : Nat) (m : AESMat) :
    add_round_key rk r (add_round_key rk r m) = m :=
  xor_with_block_cancel m _

theorem sub_bytes_below (m : AESMat) : MatBelow256 (sub_bytes m) :=
  ⟨sbox_at_lt _, sbox_at_lt _, sbox_at_lt _, sbox_at_lt _,
   sbox_at_lt _, sbox_at_lt _, sbox_at_lt _, sbox_at_lt _,
   sbox_at_lt _, sbox_at_lt _, sbox_at_lt _, sbox_at_lt _,
   sbox_at_lt _, sbox_at_lt _, sbox_at_lt _, sbox_at_lt _⟩

theorem inv_sub_bytes_below (m : AESMat) : MatBelow256 (inv_sub_bytes m) :=
  ⟨inv_sbox_at_lt _, inv_sbox_at_lt _, inv_sbox_at_lt _, inv_sbox_at_lt _,
   inv_sbox_at_lt _, inv_sbox_at_lt _, inv_sbox_at_lt _, inv_sbox_at_lt _,
   inv_sbox_at_lt _, inv_sbox_at_lt _, inv_sbox_at_lt _, inv_sbox_at_lt _,
   inv_sbox_at_lt _, inv_sbox_at_lt _, inv_sbox_at_lt _, inv_sbox_at_lt _⟩

theorem shift_rows_below (m : AESMat) (hm : MatBelow256 m) : MatBelow256 (shift_rows m) := by
  obtain ⟨h00, h01, h02, h03, h10, h11, h12, h13,
    h20, h21, h22, h23, h30, h31, h32, h33⟩ := hm
  exact ⟨h00, h01, h02, h03, h11, h12, h13, h10,
    h22, h23, h20, h21, h33, h30, h31, h32⟩

theorem inv_shift_rows_below (m : AESMat) (hm : MatBelow256 m) :
    MatBelow256 (inv_shift_rows m) := by
  obtain ⟨h00, h01, h02, h03, h10, h11, h12, h13,
    h20, h21, h22, h23, h30, h31, h32, h33⟩ := hm
  exact ⟨h00, h01, h02, h03, h13, h10, h11, h12,
    h22, h23, h20, h21, h31, h32, h33, h30⟩

theorem getD_lt_of_below (l : List Nat) (hl : BytesBelow256 l) (n : Nat) : l.getD n 0 < 256 := by
  by_cases h : n < l.length
  · rw [List.getD_eq_getElem l 0 h]
    exact hl _ (List.getElem_mem h)
  · rw [List.getD_eq_default l 0 (by omega)]
    omega

theorem from_flat_array_below (l : List Nat) (hl : BytesBelow256 l) :
    MatBelow256 (from_flat_array l) :=
  ⟨getD_lt_of_below l hl _, getD_lt_of_below l hl _, getD_lt_of_below l hl _,
   getD_lt_of_below l hl _, getD_lt_of_below l hl _, getD_lt_of_below l hl _,
   getD_lt_of_below l hl _, getD_lt_of_below l hl _, getD_lt_of_below l hl _,
   getD_lt_of_below l hl _, getD_lt_of_below l hl _, getD_lt_of_below l hl _,
   getD_lt_of_below l hl _, getD_lt_of_below l hl _, getD_lt_of_below l hl _,
   getD_lt_of_below l hl _⟩

theorem xor_with_block_below (m o : AESMat) (hm : MatBelow256 m) (ho : MatBelow256 o) :
    MatBelow256 (xor_with_block m o) := by
  obtain ⟨h00, h01, h02, h03, h10, h11, h12, h13,
    h20, h21, h22, h23, h30, h31, h32, h33⟩ := hm
  obtain ⟨g00, g01, g02, g03, g10, g11, g12, g13,
    g20, g21, g22, g23, g30, g31, g32, g33⟩ := ho
  exact ⟨xor_lt_256 h00 g00, xor_lt_256 h01 g01, xor_lt_256 h02 g02, xor_lt_256 h03 g03,
    xor_lt_256 h10 g10, xor_lt_256 h11 g11, xor_lt_256 h12 g12, xor_lt_256 h13 g13,
    xor_lt_256 h20 g20, xor_lt_256 h21 g21, xor_lt_256 h22 g22, xor_lt_256 h23 g23,
    xor_lt_256 h30 g30, xor_lt_256 h31 g31, xor_lt_256 h32 g32, xor_lt_256 h33 g33⟩

theorem take_below (l : List Nat) (n : Nat) (hl : BytesBelow256 l) :
    BytesBelow256 (l.take n) :=
  fun x hx => hl x (List.take_subset n l hx)

theorem drop_below (l : List Nat) (n : Nat) (hl : BytesBelow256 l) :
    BytesBelow256 (l.drop n) :=
  fun x hx => hl x (List.drop_subset n l hx)

theorem add_round_key_below (rk : List Nat) (r : Nat) (m : AESMat)
    (hrk : BytesBelow256 rk) (hm : MatBelow256 m) :
    MatBelow256 (add_round_key rk r m) :=
  xor_with_block_below m _ hm
    (from_flat_array_below _ (take_below _ _ (drop_below _ _ hrk)))

theorem gmult_entry_lt (a0 a1 a2 a3 b0 b1 b2 b3 : Nat)
    (h0 : a0 < 256) (h1 : a1 < 256) (h2 : a2 < 256) (h3 : a3 < 256) :
    gmult_entry a0 a1 a2 a3 b0 b1 b2 b3 < 256 := by
  unfold gmult_entry
  exact xor_lt_256 (xor_lt_256 (xor_lt_256 (xor_lt_256 (by omega)
    (galois_multiplication_lt _ _ h0)) (galois_multiplication_lt _ _ h1))
    (galois_multiplication_lt _ _ h2)) (galois_multiplication_lt _ _ h3)

theorem matrix_gmult_below (f s : AESMat) (hf : MatBelow256 f) :
    MatBelow256 (matrix_gmult f s) := by
  obtain ⟨h00, h01, h02, h03, h10, h11, h12, h13,
    h20, h21, h22, h23, h30, h31, h32, h33⟩ := hf
  exact ⟨gmult_entry_lt _ _ _ _ _ _ _ _ h00 h01 h02 h03,
    gmult_entry_lt _ _ _ _ _ _ _ _ h00 h01 h02 h03,
    gmult_entry_lt _ _ _ _ _ _ _ _ h00 h01 h02 h03,
    gmult_entry_lt _ _ _ _ _ _ _ _ h00 h01 h02 h03,
    gmult_entry_lt _ _ _ _ _ _ _ _ h10 h11 h12 h13,
    gmult_entry_lt _ _ _ _ _ _ _ _ h10 h11 h12 h13,
    gmult_entry_lt _ _ _ _ _ _ _ _ h10 h11 h12 h13,
    gmult_entry_lt _ _ _ _ _ _ _ _ h10 h11 h12 h13,
    gmult_entry_lt _ _ _ _ _ _ _ _ h20 h21 h22 h23,
    gmult_entry_lt _ _ _ _ _ _ _ _ h20 h21 h22 h23,
    gmult_entry_lt _ _ _ _ _ _ _ _ h20 h21 h22 h23,
    gmult_entry_lt _ _ _ _ _ _ _ _ h20 h21 h22 h23,
    gmult_entry_lt _ _ _ _ _ _ _ _ h30 h31 h32 h33,
    gmult_entry_lt _ _ _ _ _ _ _ _ h30 h31 h32 h33,
    gmult_entry_lt _ _ _ _ _ _ _ _ h30 h31 h32 h33,
    gmult_entry_lt _ _ _ _ _ _ _ _ h30 h31 h32 h33⟩

theorem mix_columns_below (ig : Bool) (m : AESMat) (hm : MatBelow256 m) :
    MatBelow256 (mix_columns ig m) := by
  cases ig with
  | true => exact hm
  | false => exact matrix_gmult_below _ _ (by unfold MatBelow256; decide)

theorem inv_mix_columns_below (ig : Bool) (m : AESMat) (hm : MatBelow256 m) :
    MatBelow256 (inv_mix_columns ig m) := by
  cases ig with
  | true => exact hm
  | false => exact matrix_gmult_below _ _ (by unfold MatBelow256; decide)

theorem apply_round_below (rk : List Nat) (r : Nat) (ig : Bool) (m : AESMat)
    (hrk : BytesBelow256 rk) (hm : MatBelow256 m) :
    MatBelow256 (apply_round rk r ig m) :=
  add_round_key_below rk r _ hrk
    (mix_columns_below ig _ (shift_rows_below _ (sub_bytes_below m)))

theorem apply_inverse_round_apply_round (rk : List Nat) (r : Nat) (ig : Bool) (m : AESMat)
    (hrk : BytesBelow256 rk) (hm : MatBelow256 m) :
    apply_inverse_round rk r ig (apply_round rk r ig m) = m := by
  unfold apply_round apply_inverse_round
  rw [add_round_key_cancel,
    inv_mix_columns_mix_columns ig _ (shift_rows_below _ (sub_bytes_below m)),
    inv_shift_rows_shift_rows,
    inv_sub_bytes_sub_bytes m hm]

/-! ## Whole-block round trip -/

theorem foldl_rounds_below (rk : List Nat) (hrk : BytesBelow256 rk) :
    ∀ (rs : List Nat) (m : AESMat), MatBelow256 m →
      MatBelow256 (rs.foldl (fun s r => apply_round rk r (r == AES128_ROUNDS) s) m) := by
  intro rs
  induction rs with
  | nil => intro m hm; exact hm
  | cons r rest ih =>
    intro m hm
    exact ih _ (apply_round_below rk r _ m hrk hm)

theorem foldl_inverse_rounds (rk : List Nat) (hrk : BytesBelow256 rk) :
    ∀ (rs : List Nat) (m : AESMat), MatBelow256 m →
      rs.reverse.foldl (fun s r => apply_inverse_round rk r (r == AES128_ROUNDS) s)
        (rs.foldl (fun s r => apply_round rk r (r == AES128_ROUNDS) s) m) = m := by
  intro rs
  induction rs with
  | nil => intro m hm; rfl
  | cons r rest ih =>
    intro m hm
    rw [List.foldl_cons, List.reverse_cons, List.foldl_append]
    rw [ih (apply_round rk r (r == AES128_ROUNDS) m) (apply_round_below rk r _ m hrk hm)]
    simp only [List.foldl_cons, List.foldl_nil]
    exact apply_inverse_round_apply_round rk r _ m hrk hm

theorem decrypt_block_encrypt_block (rk : List Nat) (m : AESMat)
    (hrk : BytesBelow256 rk) (hm : MatBelow256 m) :
    decrypt_block rk (encrypt_block rk m) = m := by
  unfold encrypt_block decrypt_block
  rw [foldl_inverse_rounds rk hrk (List.range' 1 AES128_ROUNDS) _
    (add_round_key_below rk 0 m hrk hm)]
  exact add_round_key_cancel rk 0 m

theorem encrypt_block_below (rk : List Nat) (m : AESMat)
    (hrk : BytesBelow256 rk) (hm : MatBelow256 m) :
    MatBelow256 (encrypt_block rk m) :=
  foldl_rounds_below rk hrk _ _ (add_round_key_below rk 0 m hrk hm)

/-! ## Round keys stay below 256 -/

theorem rcon_lt (n : Nat) : ROUND_CONSTANTS.getD n 0 < 256 := by
  by_cases h : n < 10
  · exact (by decide : ∀ k < 10, ROUND_CONSTANTS.getD k 0 < 256) n h
  · rw [List.getD_eq_default _ _ (by rw [show ROUND_CONSTANTS.length = 10 from rfl]; omega)]
    omega

theorem word_getD_below (ws : List AESWord)
    (hws : ∀ w ∈ ws, w.b0 < 256 ∧ w.b1 < 256 ∧ w.b2 < 256 ∧ w.b3 < 256) (n : Nat) :
    (ws.getD n ⟨0, 0, 0, 0⟩).b0 < 256 ∧ (ws.getD n ⟨0, 0, 0, 0⟩).b1 < 256 ∧
      (ws.getD n ⟨0, 0, 0, 0⟩).b2 < 256 ∧ (ws.getD n ⟨0, 0, 0, 0⟩).b3 < 256 := by
  by_cases h : n < ws.length
  · rw [List.getD_eq_getElem ws _ h]
    exact hws _ (List.getElem_mem h)
  · rw [List.getD_eq_default ws _ (by omega)]
    exact ⟨by decide, by decide, by decide, by decide⟩

theorem word_modifier_below (w : AESWord) (r : Nat) :
    (word_modifier w r).b0 < 256 ∧ (word_modifier w r).b1 < 256 ∧
      (word_modifier w r).b2 < 256 ∧ (word_modifier w r).b3 < 256 :=
  ⟨xor_lt_256 (sbox_at_lt _) (rcon_lt _), sbox_at_lt _, sbox_at_lt _, sbox_at_lt _⟩

theorem next_word_below (ws : List AESWord)
    (hws : ∀ w ∈ ws, w.b0 < 256 ∧ w.b1 < 256 ∧ w.b2 < 256 ∧ w.b3 < 256) :
    (next_word ws).b0 < 256 ∧ (next_word ws).b1 < 256 ∧
      (next_word ws).b2 < 256 ∧ (next_word ws).b3 < 256 := by
  unfold next_word
  dsimp only
  obtain ⟨p0, p1, p2, p3⟩ := word_getD_below ws hws (ws.length - 4)
  by_cases h : ws.length % 4 = 0
  · rw [if_pos h]
    obtain ⟨t0, t1, t2, t3⟩ := word_modifier_below (ws.getD (ws.length - 1) ⟨0, 0, 0, 0⟩)
      (ws.length / 4)
    exact ⟨xor_lt_256 p0 t0, xor_lt_256 p1 t1, xor_lt_256 p2 t2, xor_lt_256 p3 t3⟩
  · rw [if_neg h]
    obtain ⟨t0, t1, t2, t3⟩ := word_getD_below ws hws (ws.length - 1)
    exact ⟨xor_lt_256 p0 t0, xor_lt_256 p1 t1, xor_lt_256 p2 t2, xor_lt_256 p3 t3⟩

theorem key_expansion_below (n : Nat) :
    ∀ ws : List AESWord, (∀ w ∈ ws, w.b0 < 256 ∧ w.b1 < 256 ∧ w.b2 < 256 ∧ w.b3 < 256) →
      ∀ w ∈ key_expansion ws n, w.b0 < 256 ∧ w.b1 < 256 ∧ w.b2 < 256 ∧ w.b3 < 256 := by
  induction n with
  | zero => intro ws hws; exact hws
  | succ k ih =>
    intro ws hws
    rw [key_expansion]
    apply ih
    intro w hw
    rcases List.mem_append.mp hw with h | h
    · exact hws w h
    · rcases List.mem_singleton.mp h ▸ next_word_below ws hws with hb
      rw [List.mem_singleton.mp h]
      exact next_word_below ws hws

theorem words_of_bytes_below : ∀ l : List Nat, BytesBelow256 l →
    ∀ w ∈ words_of_bytes l, w.b0 < 256 ∧ w.b1 < 256 ∧ w.b2 < 256 ∧ w.b3 < 256
  | a :: b :: c :: d :: rest => by
    intro hl w hw
    rw [show words_of_bytes (a :: b :: c :: d :: rest)
      = AESWord.mk a b c d :: words_of_bytes rest from rfl] at hw
    rcases List.mem_cons.mp hw with h | h
    · subst h
      exact ⟨hl a (by simp), hl b (by simp), hl c (by simp), hl d (by simp)⟩
    · exact words_of_bytes_below rest (fun x hx => hl x (by simp [hx])) w h
  | [] => by intro hl w hw; cases hw
  | [a] => by
    intro hl w hw
    rw [show words_of_bytes [a] = [] from rfl] at hw
    cases hw
  | [a, b] => by
    intro hl w hw
    rw [show words_of_bytes [a, b] = [] from rfl] at hw
    cases hw
  | [a, b, c] => by
    intro hl w hw
    rw [show words_of_bytes [a, b, c] = [] from rfl] at hw
    cases hw

theorem bytes_of_words_below : ∀ ws : List AESWord,
    (∀ w ∈ ws, w.b0 < 256 ∧ w.b1 < 256 ∧ w.b2 < 256 ∧ w.b3 < 256) →
    BytesBelow256 (bytes_of_words ws) := by
  intro ws
  induction ws with
  | nil => intro h x hx; cases hx
  | cons w rest ih =>
    intro h x hx
    obtain ⟨w0, w1, w2, w3⟩ := h w (by simp)
    rcases hx with _ | ⟨_, hx⟩
    · exact w0
    rcases hx with _ | ⟨_, hx⟩
    · exact w1
    rcases hx with _ | ⟨_, hx⟩
    · exact w2
    rcases hx with _ | ⟨_, hx⟩
    · exact w3
    exact ih (fun v hv => h v (by simp [hv])) x hx

theorem round_keys_below (key : List Nat) (hk : BytesBelow256 key) :
    BytesBelow256 (aes_128_get_round_keys key) :=
  bytes_of_words_below _ (key_expansion_below 40 _ (words_of_bytes_below key hk))

/-! ## Flattening and splitting buffers -/

theorem from_flat_to_flat (m : AESMat) : from_flat_array (to_flat_array m) = m := rfl

theorem to_flat_length (m : AESMat) : (to_flat_array m).length = 16 := rfl

theorem to_flat_from_flat : ∀ l : List Nat, l.length = 16 →
    to_flat_array (from_flat_array l) = l
  | [b0, b1, b2, b3, b4, b5, b6, b7, b8, b9, b10, b11, b12, b13, b14, b15], _ => rfl
  | [], h => by simp at h
  | [b0], h => by simp at h
  | [b0, b1], h => by simp at h
  | [b0, b1, b2], h => by simp at h
  | [b0, b1, b2, b3], h => by simp at h
  | [b0, b1, b2, b3, b4], h => by simp at h
  | [b0, b1, b2, b3, b4, b5], h => by simp at h
  | [b0, b1, b2, b3, b4, b5, b6], h => by simp at h
  | [b0, b1, b2, b3, b4, b5, b6, b7], h => by simp at h
  | [b0, b1, b2, b3, b4, b5, b6, b7, b8], h => by simp at h
  | [b0, b1, b2, b3, b4, b5, b6, b7, b8, b9], h => by simp at h
  | [b0, b1, b2, b3, b4, b5, b6, b7, b8, b9, b10], h => by simp at h
  | [b0, b1, b2, b3, b4, b5, b6, b7, b8, b9, b10, b11], h => by simp at h
  | [b0, b1, b2, b3, b4, b5, b6, b7, b8, b9, b10, b11, b12], h => by simp at h
  | [b0, b1, b2, b3, b4, b5, b6, b7, b8, b9, b10, b11, b12, b13], h => by simp at h
  | [b0, b1, b2, b3, b4, b5, b6, b7, b8, b9, b10, b11, b12, b13, b14], h => by simp at h
  | b0 :: b1 :: b2 :: b3 :: b4 :: b5 :: b6 :: b7 :: b8 :: b9 :: b10 :: b11 :: b12 :: b13
      :: b14 :: b15 :: b16 :: rest, h => by simp at h

theorem return_blocks_cons (b : AESMat) (bs : List AESMat) :
    return_blocks_as_bytes (b :: bs) = to_flat_array b ++ return_blocks_as_bytes bs := rfl

theorem return_blocks_length (blocks : List AESMat) :
    (return_blocks_as_bytes blocks).length = 16 * blocks.length := by
  induction blocks with
  | nil => rfl
  | cons b rest ih =>
    rw [return_blocks_cons, List.length_append, ih, to_flat_length, List.length_cons]
    omega

theorem blocks_of_return (blocks : List AESMat) :
    (List.range ((return_blocks_as_bytes blocks).length / 16)).map
      (fun i => from_flat_array (((return_blocks_as_bytes blocks).drop (16 * i)).take 16))
      = blocks := by
  induction blocks with
  | nil => rfl
  | cons b rest ih =>
    rw [return_blocks_length]
    have hdiv : 16 * (b :: rest).length / 16 = rest.length + 1 := by
      rw [List.length_cons]; omega
    rw [hdiv, List.range_succ_eq_map, List.map_cons]
    refine List.cons_eq_cons.mpr ⟨?_, ?_⟩
    · rw [return_blocks_cons, show 16 * 0 = 0 from rfl, List.drop_zero,
        List.take_left' (to_flat_length b)]
      exact from_flat_to_flat b
    · rw [List.map_map]
      have hpt : ∀ i ∈ List.range rest.length,
          ((fun i => from_flat_array
              (((return_blocks_as_bytes (b :: rest)).drop (16 * i)).take 16)) ∘ Nat.succ) i
          = from_flat_array (((return_blocks_as_bytes rest).drop (16 * i)).take 16) := by
        intro i hi
        simp only [Function.comp_apply]
        have harith : 16 * Nat.succ i = 16 + 16 * i := by omega
        rw [harith, ← List.drop_drop, return_blocks_cons,
          List.drop_left' (to_flat_length b)]
      rw [List.map_congr_left hpt]
      have hlen2 : rest.length = (return_blocks_as_bytes rest).length / 16 := by
        rw [return_blocks_length]; omega
      rw [hlen2]
      exact ih

theorem divide_return_blocks (blocks : List AESMat) (hne : blocks ≠ []) :
    divide_in_blocks (return_blocks_as_bytes blocks) = Except.ok blocks := by
  unfold divide_in_blocks
  rw [if_neg (by
    rw [return_blocks_length]
    have : blocks.length ≠ 0 := fun h => hne (List.eq_nil_of_length_eq_zero h)
    omega)]
  rw [blocks_of_return]

theorem return_divide_aux : ∀ (n : Nat) (l : List Nat), l.length = 16 * n →
    return_blocks_as_bytes ((List.range (l.length / 16)).map
      (fun i => from_flat_array ((l.drop (16 * i)).take 16))) = l := by
  intro n
  induction n with
  | zero =>
    intro l h
    have hnil : l = [] := List.eq_nil_of_length_eq_zero (by omega)
    subst hnil
    rfl
  | succ k ih =>
    intro l h
    have h16 : (l.take 16).length = 16 := by rw [List.length_take]; omega
    have hdl : (l.drop 16).length = 16 * k := by rw [List.length_drop]; omega
    rw [show l.length / 16 = k + 1 by omega, List.range_succ_eq_map, List.map_cons,
      return_blocks_cons]
    have hhead : to_flat_array (from_flat_array ((l.drop (16 * 0)).take 16)) = l.take 16 := by
      rw [show 16 * 0 = 0 from rfl, List.drop_zero]
      exact to_flat_from_flat _ h16
    rw [hhead, List.map_map]
    have hpt : ∀ i ∈ List.range k,
        ((fun i => from_flat_array ((l.drop (16 * i)).take 16)) ∘ Nat.succ) i
        = from_flat_array (((l.drop 16).drop (16 * i)).take 16) := by
      intro i hi
      simp only [Function.comp_apply]
      have harith : 16 * Nat.succ i = 16 + 16 * i := by omega
      rw [harith, ← List.drop_drop]
    rw [List.map_congr_left hpt]
    have hlen2 : k = (l.drop 16).length / 16 := by rw [hdl]; omega
    rw [hlen2, ih (l.drop 16) hdl, List.take_append_drop]

theorem return_divide (l : List Nat) (hmod : l.length % 16 = 0) :
    return_blocks_as_bytes ((List.range (l.length / 16)).map
      (fun i => from_flat_array ((l.drop (16 * i)).take 16))) = l :=
  return_divide_aux (l.length / 16) l (by omega)

theorem pkcs_noop_16 (l : List Nat) (hmod : l.length % 16 = 0) :
    pkcs_padding l AES_BLOCK_SIZE = l := by
  apply pkcs_padding_of_mod_eq_zero
  rw [show AES_BLOCK_SIZE = 16 from rfl, Nat.mod_mod_of_dvd _ (by omega)]
  exact hmod

/-! ## ECB mode round trip -/

theorem divide_in_blocks_ok (l : List Nat) (hne : l ≠ []) :
    divide_in_blocks l = Except.ok ((List.range (l.length / 16)).map
      (fun i => from_flat_array ((l.drop (16 * i)).take 16))) := by
  unfold divide_in_blocks
  rw [if_neg (fun h => hne (List.eq_nil_of_length_eq_zero h))]

theorem blocks_member_below (l : List Nat) (hl : BytesBelow256 l) (b : AESMat)
    (hb : b ∈ (List.range (l.length / 16)).map
      (fun i => from_flat_array ((l.drop (16 * i)).take 16))) : MatBelow256 b := by
  obtain ⟨i, hi, rfl⟩ := List.mem_map.mp hb
  exact from_flat_array_below _ (take_below _ _ (drop_below _ _ hl))

theorem blocks_of_ne_nil (l : List Nat) (hmod : l.length % 16 = 0) (hne : l ≠ []) :
    (List.range (l.length / 16)).map
      (fun i => from_flat_array ((l.drop (16 * i)).take 16)) ≠ [] := by
  intro hnil
  have h1 := List.map_eq_nil_iff.mp hnil
  have h2 := List.range_eq_nil.mp h1
  have hlp : 0 < l.length := List.length_pos.mpr hne
  omega

theorem ecb_round_trip (key p : List Nat) (hkb : BytesBelow256 key)
    (hp : p.length % 16 = 0) (hne : p ≠ []) (hpb : BytesBelow256 p) :
    ∃ c, aes_128_ecb_encode key p = Except.ok c ∧ c.length = p.length ∧
      aes_128_ecb_decode key c = Except.ok p := by
  have hrkb : BytesBelow256 (aes_128_get_round_keys key) := round_keys_below key hkb
  refine ⟨return_blocks_as_bytes (((List.range (p.length / 16)).map
      (fun i => from_flat_array ((p.drop (16 * i)).take 16))).map
      (encrypt_block (aes_128_get_round_keys key))), ?_, ?_, ?_⟩
  · unfold aes_128_ecb_encode
    rw [pkcs_noop_16 p hp]
    dsimp only
    rw [divide_in_blocks_ok p hne]
  · rw [return_blocks_length, List.length_map, List.length_map, List.length_range]
    omega
  · unfold aes_128_ecb_decode
    have hcmod : (return_blocks_as_bytes (((List.range (p.length / 16)).map
        (fun i => from_flat_array ((p.drop (16 * i)).take 16))).map
        (encrypt_block (aes_128_get_round_keys key)))).length % 16 = 0 := by
      rw [return_blocks_length]; omega
    rw [pkcs_noop_16 _ hcmod]
    dsimp only
    rw [divide_return_blocks _ (by
      intro hmapnil
      exact blocks_of_ne_nil p hp hne (List.map_eq_nil_iff.mp hmapnil))]
    dsimp only
    rw [List.map_map]
    have hinv : ∀ b ∈ (List.range (p.length / 16)).map
        (fun i => from_flat_array ((p.drop (16 * i)).take 16)),
        (decrypt_block (aes_128_get_round_keys key)
          ∘ encrypt_block (aes_128_get_round_keys key)) b = b := by
      intro b hb
      simp only [Function.comp_apply]
      exact decrypt_block_encrypt_block _ b hrkb (blocks_member_below p hpb b hb)
    rw [List.map_congr_left hinv, List.map_id', return_divide p hp]

/-! ## CBC mode round trip -/

theorem cbc_encode_blocks_length (rk : List Nat) :
    ∀ (bs : List AESMat) (prev : AESMat), (cbc_encode_blocks rk prev bs).length = bs.length := by
  intro bs
  induction bs with
  | nil => intro prev; rfl
  | cons b rest ih =>
    intro prev
    rw [cbc_encode_blocks]
    rw [List.length_cons, List.length_cons, ih]

theorem cbc_decode_encode_blocks (rk : List Nat) (hrk : BytesBelow256 rk) :
    ∀ (bs : List AESMat) (prev : AESMat), MatBelow256 prev → (∀ b ∈ bs, MatBelow256 b) →
      cbc_decode_blocks rk prev (cbc_encode_blocks rk prev bs) = bs := by
  intro bs
  induction bs with
  | nil => intro prev _ _; rfl
  | cons b rest ih =>
    intro prev hprev hbs
    rw [cbc_encode_blocks]
    rw [cbc_decode_blocks]
    have hxb : MatBelow256 (xor_with_block b prev) :=
      xor_with_block_below _ _ (hbs b (by simp)) hprev
    rw [decrypt_block_encrypt_block rk _ hrk hxb, xor_with_block_cancel]
    rw [ih _ (encrypt_block_below rk _ hrk hxb) (fun x hx => hbs x (by simp [hx]))]

theorem cbc_round_trip (key p iv : List Nat) (hkb : BytesBelow256 key)
    (hp : p.length % 16 = 0) (hne : p ≠ []) (hpb : BytesBelow256 p)
    (hivb : BytesBelow256 iv) :
    ∃ c, aes_128_cbc_encode key p iv = Except.ok c ∧ c.length = p.length ∧
      aes_128_cbc_decode key c iv = Except.ok p := by
  have hrkb := round_keys_below key hkb
  refine ⟨return_blocks_as_bytes (cbc_encode_blocks (aes_128_get_round_keys key)
      (from_flat_array iv) ((List.range (p.length / 16)).map
      (fun i => from_flat_array ((p.drop (16 * i)).take 16)))), ?_, ?_, ?_⟩
  · unfold aes_128_cbc_encode
    rw [pkcs_noop_16 p hp]
    dsimp only
    rw [divide_in_blocks_ok p hne]
  · rw [return_blocks_length, cbc_encode_blocks_length, List.length_map, List.length_range]
    omega
  · unfold aes_128_cbc_decode
    have hcmod : (return_blocks_as_bytes (cbc_encode_blocks (aes_128_get_round_keys key)
        (from_flat_array iv) ((List.range (p.length / 16)).map
        (fun i => from_flat_array ((p.drop (16 * i)).take 16))))).length % 16 = 0 := by
      rw [return_blocks_length]
      omega
    rw [pkcs_noop_16 _ hcmod]
    dsimp only
    rw [divide_return_blocks _ (by
      intro hnil
      have hlen := cbc_encode_blocks_length (aes_128_get_round_keys key)
        ((List.range (p.length / 16)).map
          (fun i => from_flat_array ((p.drop (16 * i)).take 16))) (from_flat_array iv)
      rw [hnil] at hlen
      exact blocks_of_ne_nil p hp hne
        (List.eq_nil_of_length_eq_zero (by simpa using hlen.symm)))]
    dsimp only
    rw [cbc_decode_encode_blocks _ hrkb _ _ (from_flat_array_below iv hivb)
      (fun b hb => blocks_member_below p hpb b hb)]
    rw [return_divide p hp]

/-! ## CTR mode round trip -/

theorem u64_le_length (n : Nat) : (u64_to_le_bytes n).length = 8 := by
  simp [u64_to_le_bytes]

theorem ecb_encode_single (key l : List Nat) (h : l.length = 16) :
    aes_128_ecb_encode key l = Except.ok
      (to_flat_array (encrypt_block (aes_128_get_round_keys key) (from_flat_array l))) := by
  unfold aes_128_ecb_encode
  rw [pkcs_noop_16 l (by omega)]
  dsimp only
  rw [divide_in_blocks_ok l (by intro hnil; rw [hnil] at h; simp at h)]
  have harg : ((l.drop (16 * 0)).take 16) = l := by
    rw [show 16 * 0 = 0 from rfl, List.drop_zero, ← h, List.take_length]
  rw [h, show (16 : Nat) / 16 = 1 from rfl, show List.range 1 = [0] from rfl,
    List.map_cons, List.map_nil, harg]
  dsimp only
  simp [return_blocks_as_bytes]

theorem zipWith_xor_cancel : ∀ (a s : List Nat), a.length ≤ s.length →
    List.zipWith Nat.xor (List.zipWith Nat.xor a s) s = a := by
  intro a
  induction a with
  | nil => intro s _; cases s <;> rfl
  | cons x xs ih =>
    intro s hs
    cases s with
    | nil => simp at hs
    | cons y ys =>
      simp only [List.zipWith_cons_cons]
      rw [show ∀ a b : Nat, Nat.xor a b = a ^^^ b from fun _ _ => rfl,
        show ∀ a b : Nat, Nat.xor a b = a ^^^ b from fun _ _ => rfl,
        Nat.xor_cancel_right, ih ys (by simpa using hs)]

theorem chunks_of_16_nil : chunks_of_16 [] = [] := by
  rw [chunks_of_16]

theorem chunks_of_16_cons (a : Nat) (rest : List Nat) :
    chunks_of_16 (a :: rest)
      = List.take 16 (a :: rest) :: chunks_of_16 (List.drop 16 (a :: rest)) := by
  rw [chunks_of_16]

theorem ctr_chunks_round_trip_aux (key : List Nat) (nonce : Nat) :
    ∀ (n : Nat) (l : List Nat), l.length ≤ n → ∀ ctr : Nat,
      ∃ c, aes_128_ctr_chunks key nonce (chunks_of_16 l) ctr = Except.ok c ∧
        c.length = l.length ∧
        aes_128_ctr_chunks key nonce (chunks_of_16 c) ctr = Except.ok l := by
  intro n
  induction n with
  | zero =>
    intro l hl ctr
    have hnil : l = [] := List.eq_nil_of_length_eq_zero (by omega)
    subst hnil
    refine ⟨[], ?_, rfl, ?_⟩ <;> (rw [chunks_of_16_nil]; rfl)
  | succ k ih =>
    intro l hl ctr
    cases l with
    | nil => refine ⟨[], ?_, rfl, ?_⟩ <;> (rw [chunks_of_16_nil]; rfl)
    | cons a rest =>
      have hblock : (u64_to_le_bytes nonce ++ u64_to_le_bytes ctr).length = 16 := by
        rw [List.length_append, u64_le_length, u64_le_length]
      rw [chunks_of_16_cons, aes_128_ctr_chunks, ecb_encode_single key _ hblock]
      obtain ⟨ctail, htail, hlen, hback⟩ := ih ((a :: rest).drop 16)
        (by
          rw [List.length_drop]
          have hl2 := hl
          simp only [List.length_cons] at hl2 ⊢
          omega) (ctr + 1)
      rw [htail]
      dsimp only
      refine ⟨List.zipWith Nat.xor ((a :: rest).take 16)
        (to_flat_array (encrypt_block (aes_128_get_round_keys key)
          (from_flat_array (u64_to_le_bytes nonce ++ u64_to_le_bytes ctr)))) ++ ctail,
        rfl, ?_, ?_⟩
      · rw [List.length_append, List.length_zipWith, to_flat_length, List.length_take, hlen,
          List.length_drop]
        simp only [List.length_cons]
        omega
      · have hziplen : (List.zipWith Nat.xor ((a :: rest).take 16)
            (to_flat_array (encrypt_block (aes_128_get_round_keys key)
              (from_flat_array (u64_to_le_bytes nonce ++ u64_to_le_bytes ctr))))).length
            = min ((a :: rest).length) 16 := by
          rw [List.length_zipWith, to_flat_length, List.length_take]
          omega
        have htake16 : ∀ z t : List Nat, z.length = min ((a :: rest).length) 16 →
            (z ++ t).take 16 = z ∨ ((a :: rest).length < 16 ∧ z.length < 16) := by
          intro z t hz
          by_cases h16 : 16 ≤ (a :: rest).length
          · left
            exact List.take_left' (by omega)
          · right
            constructor <;> omega
        by_cases h16 : 16 ≤ (a :: rest).length
        · have hzl : (List.zipWith Nat.xor ((a :: rest).take 16)
              (to_flat_array (encrypt_block (aes_128_get_round_keys key)
                (from_flat_array (u64_to_le_bytes nonce ++ u64_to_le_bytes ctr))))).length
              = 16 := by omega
          have hcons : List.zipWith Nat.xor ((a :: rest).take 16)
              (to_flat_array (encrypt_block (aes_128_get_round_keys key)
                (from_flat_array (u64_to_le_bytes nonce ++ u64_to_le_bytes ctr)))) ++ ctail
              = (List.zipWith Nat.xor ((a :: rest).take 16)
                (to_flat_array (encrypt_block (aes_128_get_round_keys key)
                  (from_flat_array (u64_to_le_bytes nonce ++ u64_to_le_bytes ctr)))) ++ ctail) := rfl
          obtain ⟨z0, zrest, hz⟩ : ∃ z0 zrest, List.zipWith Nat.xor ((a :: rest).take 16)
              (to_flat_array (encrypt_block (aes_128_get_round_keys key)
                (from_flat_array (u64_to_le_bytes nonce ++ u64_to_le_bytes ctr))))
              = z0 :: zrest := by
            cases hzz : List.zipWith Nat.xor ((a :: rest).take 16)
              (to_flat_array (encrypt_block (aes_128_get_round_keys key)
                (from_flat_array (u64_to_le_bytes nonce ++ u64_to_le_bytes ctr)))) with
            | nil => rw [hzz] at hzl; simp at hzl
            | cons z0 zrest => exact ⟨z0, zrest, rfl⟩
          rw [hz, List.cons_append, chunks_of_16_cons, ← List.cons_append, ← hz]
          rw [List.take_left' hzl, List.drop_left' hzl]
          rw [aes_128_ctr_chunks, ecb_encode_single key _ hblock, hback]
          dsimp only
          rw [zipWith_xor_cancel _ _ (by rw [to_flat_length, List.length_take]; omega)]
          rw [List.take_append_drop]
        · have hdrop : (a :: rest).drop 16 = [] := by
            apply List.eq_nil_of_length_eq_zero
            rw [List.length_drop]
            omega
          have hctail : ctail = [] := by
            apply List.eq_nil_of_length_eq_zero
            rw [hlen, hdrop]
            rfl
          subst hctail
          rw [List.append_nil]
          have hzl2 : (List.zipWith Nat.xor ((a :: rest).take 16)
              (to_flat_array (encrypt_block (aes_128_get_round_keys key)
                (from_flat_array (u64_to_le_bytes nonce ++ u64_to_le_bytes ctr))))).length
              ≤ 16 := by omega
          obtain ⟨z0, zrest, hz⟩ : ∃ z0 zrest, List.zipWith Nat.xor ((a :: rest).take 16)
              (to_flat_array (encrypt_block (aes_128_get_round_keys key)
                (from_flat_array (u64_to_le_bytes nonce ++ u64_to_le_bytes ctr))))
              = z0 :: zrest := by
            cases hzz : List.zipWith Nat.xor ((a :: rest).take 16)
              (to_flat_array (encrypt_block (aes_128_get_round_keys key)
                (from_flat_array (u64_to_le_bytes nonce ++ u64_to_le_bytes ctr)))) with
            | nil =>
              rw [hzz] at hziplen
              simp only [List.length_nil, List.length_cons] at hziplen
              omega
            | cons z0 zrest => exact ⟨z0, zrest, rfl⟩
          rw [hz, chunks_of_16_cons, ← hz]
          rw [List.take_of_length_le (by omega), List.drop_eq_nil_of_le (by omega)]
          rw [chunks_of_16_nil]
          rw [aes_128_ctr_chunks, ecb_encode_single key _ hblock]
          rw [show aes_128_ctr_chunks key nonce [] (ctr + 1) = Except.ok [] from rfl]
          dsimp only
          rw [zipWith_xor_cancel _ _ (by rw [to_flat_length, List.length_take]; omega)]
          rw [List.append_nil, List.take_of_length_le (by omega)]

/-! ## C1: round trips through the public interface -/

theorem from_bytes_16 (k : List Nat) (hk : k.length = 16) :
    AESKey.from_bytes k = Except.ok (AESKey.aes128 k) := by
  unfold AESKey.from_bytes
  rw [if_pos hk]

/-- C1: with a 16-byte key, `decode(encode(p, k, ECB), k, ECB) = p` for
every plaintext whose length is a positive multiple of 16; the same holds
for CBC with a 16-byte IV; and for CTR with any nonce,
`decode(encode(q, k, CTR), k, CTR) = q` for a plaintext `q` of arbitrary
length, including lengths that are not multiples of 16. -/
theorem c1_round_trip (k p iv q : List Nat) (nonce : Nat)
    (hk : k.length = 16) (hkb : BytesBelow256 k)
    (hp : p.length % 16 = 0) (hne : p ≠ []) (hpb : BytesBelow256 p)
    (hiv : iv.length = 16) (hivb : BytesBelow256 iv) :
    (∃ c, AES.encode p k AESMode.ECB = AESOutcome.ok c ∧
      AES.decode c k AESMode.ECB = AESOutcome.ok p) ∧
    (∃ c, AES.encode p k (AESMode.CBC iv) = AESOutcome.ok c ∧
      AES.decode c k (AESMode.CBC iv) = AESOutcome.ok p) ∧
    (∃ c, AES.encode q k (AESMode.CTR nonce) = AESOutcome.ok c ∧
      AES.decode c k (AESMode.CTR nonce) = AESOutcome.ok q) := by
  refine ⟨?_, ?_, ?_⟩
  · obtain ⟨c, henc, hlen, hdec⟩ := ecb_round_trip k p hkb hp hne hpb
    refine ⟨c, ?_, ?_⟩
    · unfold AES.encode
      rw [from_bytes_16 k hk]
      dsimp only
      rw [henc]
      rfl
    · unfold AES.decode
      rw [from_bytes_16 k hk]
      dsimp only
      rw [hdec]
      rfl
  · obtain ⟨c, henc, hlen, hdec⟩ := cbc_round_trip k p iv hkb hp hne hpb hivb
    refine ⟨c, ?_, ?_⟩
    · unfold AES.encode
      rw [from_bytes_16 k hk]
      dsimp only
      rw [henc]
      rfl
    · unfold AES.decode
      rw [from_bytes_16 k hk]
      dsimp only
      rw [hdec]
      rfl
  · obtain ⟨c, henc, hlen, hback⟩ := ctr_chunks_round_trip_aux k nonce q.length q le_rfl 0
    refine ⟨c, ?_, ?_⟩
    · unfold AES.encode
      rw [from_bytes_16 k hk]
      dsimp only
      unfold aes_128_ctr
      rw [henc]
      rfl
    · unfold AES.decode
      rw [from_bytes_16 k hk]
      dsimp only
      unfold aes_128_ctr
      rw [hback]
      rfl

theorem c1_round_trip_witness :
    (∃ c, AES.encode two_one_nine_two kung_fu_key AESMode.ECB = AESOutcome.ok c ∧
      AES.decode c kung_fu_key AESMode.ECB = AESOutcome.ok two_one_nine_two) ∧
    (∃ c, AES.encode two_one_nine_two kung_fu_key
        (AESMode.CBC (List.replicate 16 0)) = AESOutcome.ok c ∧
      AES.decode c kung_fu_key (AESMode.CBC (List.replicate 16 0))
        = AESOutcome.ok two_one_nine_two) ∧
    (∃ c, AES.encode [1, 2, 3] kung_fu_key (AESMode.CTR 7) = AESOutcome.ok c ∧
      AES.decode c kung_fu_key (AESMode.CTR 7) = AESOutcome.ok [1, 2, 3]) :=
  c1_round_trip kung_fu_key two_one_nine_two (List.replicate 16 0) [1, 2, 3] 7
    (by decide) (show ∀ x ∈ kung_fu_key, x < 256 by decide)
    (by decide) (by decide) (show ∀ x ∈ two_one_nine_two, x < 256 by decide)
    (by decide) (show ∀ x ∈ List.replicate 16 0, x < 256 by decide)

/-! ## C9: empty input -/

theorem pkcs_padding_ne_nil (l : List Nat) (n : Nat) (hne : l ≠ []) :
    pkcs_padding l n ≠ [] := by
  unfold pkcs_padding
  dsimp only
  split
  · intro h
    exact hne (List.append_eq_nil.mp h).1
  · exact hne

theorem ecb_encode_ok (key p : List Nat) (hne : p ≠ []) :
    ∃ c, aes_128_ecb_encode key p = Except.ok c := by
  unfold aes_128_ecb_encode
  dsimp only
  rw [divide_in_blocks_ok _ (pkcs_padding_ne_nil p _ hne)]
  exact ⟨_, rfl⟩

theorem ecb_decode_ok (key p : List Nat) (hne : p ≠ []) :
    ∃ c, aes_128_ecb_decode key p = Except.ok c := by
  unfold aes_128_ecb_decode
  dsimp only
  rw [divide_in_blocks_ok _ (pkcs_padding_ne_nil p _ hne)]
  exact ⟨_, rfl⟩

theorem cbc_encode_ok (key p iv : List Nat) (hne : p ≠ []) :
    ∃ c, aes_128_cbc_encode key p iv = Except.ok c := by
  unfold aes_128_cbc_encode
  dsimp only
  rw [divide_in_blocks_ok _ (pkcs_padding_ne_nil p _ hne)]
  exact ⟨_, rfl⟩

theorem cbc_decode_ok (key p iv : List Nat) (hne : p ≠ []) :
    ∃ c, aes_128_cbc_decode key p iv = Except.ok c := by
  unfold aes_128_cbc_decode
  dsimp only
  rw [divide_in_blocks_ok _ (pkcs_padding_ne_nil p _ hne)]
  exact ⟨_, rfl⟩

theorem ctr_ok (key p : List Nat) (nonce : Nat) :
    ∃ c, aes_128_ctr key p nonce = Except.ok c := by
  obtain ⟨c, henc, -, -⟩ := ctr_chunks_round_trip_aux key nonce p.length p le_rfl 0
  exact ⟨c, henc⟩

/-- C9: with a 16-byte key, encoding or decoding the empty buffer fails
with `InvalidBlockSize 0` in ECB and CBC mode but succeeds with the empty
buffer in CTR mode; and the empty buffer is the only input on which the
engine can return `InvalidBlockSize`, since every non-empty input of any
length is padded before block splitting and then succeeds outright. -/
theorem c9_empty_input (k iv : List Nat) (nonce : Nat) (hk : k.length = 16)
    (hiv : iv.length = 16) :
    (AES.encode [] k AESMode.ECB = AESOutcome.err (AESError.InvalidBlockSize 0) ∧
     AES.decode [] k AESMode.ECB = AESOutcome.err (AESError.InvalidBlockSize 0) ∧
     AES.encode [] k (AESMode.CBC iv) = AESOutcome.err (AESError.InvalidBlockSize 0) ∧
     AES.decode [] k (AESMode.CBC iv) = AESOutcome.err (AESError.InvalidBlockSize 0)) ∧
    (AES.encode [] k (AESMode.CTR nonce) = AESOutcome.ok [] ∧
     AES.decode [] k (AESMode.CTR nonce) = AESOutcome.ok []) ∧
    (∀ p : List Nat, p ≠ [] →
      (∃ c, AES.encode p k AESMode.ECB = AESOutcome.ok c) ∧
      (∃ c, AES.decode p k AESMode.ECB = AESOutcome.ok c) ∧
      (∃ c, AES.encode p k (AESMode.CBC iv) = AESOutcome.ok c) ∧
      (∃ c, AES.decode p k (AESMode.CBC iv) = AESOutcome.ok c) ∧
      (∃ c, AES.encode p k (AESMode.CTR nonce) = AESOutcome.ok c) ∧
      (∃ c, AES.decode p k (AESMode.CTR nonce) = AESOutcome.ok c)) := by
  refine ⟨⟨?_, ?_, ?_, ?_⟩, ⟨?_, ?_⟩, ?_⟩
  · unfold AES.encode; rw [from_bytes_16 k hk]; rfl
  · unfold AES.decode; rw [from_bytes_16 k hk]; rfl
  · unfold AES.encode; rw [from_bytes_16 k hk]; rfl
  · unfold AES.decode; rw [from_bytes_16 k hk]; rfl
  · unfold AES.encode
    rw [from_bytes_16 k hk]
    dsimp only
    unfold aes_128_ctr
    rw [chunks_of_16_nil]
    rfl
  · unfold AES.decode
    rw [from_bytes_16 k hk]
    dsimp only
    unfold aes_128_ctr
    rw [chunks_of_16_nil]
    rfl
  · intro p hne
    refine ⟨?_, ?_, ?_, ?_, ?_, ?_⟩
    · obtain ⟨c, hc⟩ := ecb_encode_ok k p hne
      refine ⟨c, ?_⟩
      unfold AES.encode
      rw [from_bytes_16 k hk]
      dsimp only
      rw [hc]
      rfl
    · obtain ⟨c, hc⟩ := ecb_decode_ok k p hne
      refine ⟨c, ?_⟩
      unfold AES.decode
      rw [from_bytes_16 k hk]
      dsimp only
      rw [hc]
      rfl
    · obtain ⟨c, hc⟩ := cbc_encode_ok k p iv hne
      refine ⟨c, ?_⟩
      unfold AES.encode
      rw [from_bytes_16 k hk]
      dsimp only
      rw [hc]
      rfl
    · obtain ⟨c, hc⟩ := cbc_decode_ok k p iv hne
      refine ⟨c, ?_⟩
      unfold AES.decode
      rw [from_bytes_16 k hk]
      dsimp only
      rw [hc]
      rfl
    · obtain ⟨c, hc⟩ := ctr_ok k p nonce
      refine ⟨c, ?_⟩
      unfold AES.encode
      rw [from_bytes_16 k hk]
      dsimp only
      rw [hc]
      rfl
    · obtain ⟨c, hc⟩ := ctr_ok k p nonce
      refine ⟨c, ?_⟩
      unfold AES.decode
      rw [from_bytes_16 k hk]
      dsimp only
      rw [hc]
      rfl

theorem c9_empty_input_witness :
    (AES.encode [] kung_fu_key AESMode.ECB = AESOutcome.err (AESError.InvalidBlockSize 0) ∧
     AES.decode [] kung_fu_key AESMode.ECB = AESOutcome.err (AESError.InvalidBlockSize 0) ∧
     AES.encode [] kung_fu_key (AESMode.CBC (List.replicate 16 0))
       = AESOutcome.err (AESError.InvalidBlockSize 0) ∧
     AES.decode [] kung_fu_key (AESMode.CBC (List.replicate 16 0))
       = AESOutcome.err (AESError.InvalidBlockSize 0)) ∧
    (AES.encode [] kung_fu_key (AESMode.CTR 0) = AESOutcome.ok [] ∧
     AES.decode [] kung_fu_key (AESMode.CTR 0) = AESOutcome.ok []) ∧
    (∀ p : List Nat, p ≠ [] →
      (∃ c, AES.encode p kung_fu_key AESMode.ECB = AESOutcome.ok c) ∧
      (∃ c, AES.decode p kung_fu_key AESMode.ECB = AESOutcome.ok c) ∧
      (∃ c, AES.encode p kung_fu_key (AESMode.CBC (List.replicate 16 0)) = AESOutcome.ok c) ∧
      (∃ c, AES.decode p kung_fu_key (AESMode.CBC (List.replicate 16 0)) = AESOutcome.ok c) ∧
      (∃ c, AES.encode p kung_fu_key (AESMode.CTR 0) = AESOutcome.ok c) ∧
      (∃ c, AES.decode p kung_fu_key (AESMode.CTR 0) = AESOutcome.ok c)) :=
  c9_empty_input kung_fu_key (List.replicate 16 0) 0 (by decide) (by decide)

/-! ## C10: decode performs no unpadding -/

theorem cbc_decode_blocks_length (rk : List Nat) :
    ∀ (cs : List AESMat) (prev : AESMat), (cbc_decode_blocks rk prev cs).length = cs.length := by
  intro cs
  induction cs with
  | nil => intro prev; rfl
  | cons c rest ih =>
    intro prev
    rw [cbc_decode_blocks, List.length_cons, List.length_cons, ih]

/-- C10: with a 16-byte key and IV, decoding a ciphertext whose length is
a positive multiple of 16 in ECB or CBC mode succeeds and returns a
plaintext of exactly the same length: no padding bytes are stripped. -/
theorem c10_decode_no_unpad (k iv c : List Nat) (hk : k.length = 16) (hiv : iv.length = 16)
    (hc : c.length % 16 = 0) (hcne : c ≠ []) :
    (∃ p, AES.decode c k AESMode.ECB = AESOutcome.ok p ∧ p.length = c.length) ∧
    (∃ p, AES.decode c k (AESMode.CBC iv) = AESOutcome.ok p ∧ p.length = c.length) := by
  constructor
  · refine ⟨return_blocks_as_bytes (((List.range (c.length / 16)).map
      (fun i => from_flat_array ((c.drop (16 * i)).take 16))).map
      (decrypt_block (aes_128_get_round_keys k))), ?_, ?_⟩
    · unfold AES.decode
      rw [from_bytes_16 k hk]
      dsimp only
      unfold aes_128_ecb_decode
      rw [pkcs_noop_16 c hc]
      dsimp only
      rw [divide_in_blocks_ok c hcne]
      rfl
    · rw [return_blocks_length, List.length_map, List.length_map, List.length_range]
      omega
  · refine ⟨return_blocks_as_bytes (cbc_decode_blocks (aes_128_get_round_keys k)
      (from_flat_array iv) ((List.range (c.length / 16)).map
      (fun i => from_flat_array ((c.drop (16 * i)).take 16)))), ?_, ?_⟩
    · unfold AES.decode
      rw [from_bytes_16 k hk]
      dsimp only
      unfold aes_128_cbc_decode
      rw [pkcs_noop_16 c hc]
      dsimp only
      rw [divide_in_blocks_ok c hcne]
      rfl
    · rw [return_blocks_length, cbc_decode_blocks_length, List.length_map, List.length_range]
      omega

theorem c10_decode_no_unpad_witness :
    (∃ p, AES.decode (List.replicate 32 7) kung_fu_key AESMode.ECB = AESOutcome.ok p ∧
      p.length = (List.replicate 32 7).length) ∧
    (∃ p, AES.decode (List.replicate 32 7) kung_fu_key
        (AESMode.CBC (List.replicate 16 0)) = AESOutcome.ok p ∧
      p.length = (List.replicate 32 7).length) :=
  c10_decode_no_unpad kung_fu_key (List.replicate 16 0) (List.replicate 32 7)
    (by decide) (by decide) (by decide) (by decide)

/-! ## C6: positional analysis of CBC decoding -/

theorem list_eq_of_getD (c c2 : List Nat) (hlen : c2.length = c.length)
    (h : ∀ q, q < c.length → c2.getD q 0 = c.getD q 0) : c2 = c := by
  apply List.ext_getElem hlen
  intro q hq1 hq2
  have hh := h q (by omega)
  rwa [List.getD_eq_getElem c2 0 hq1, List.getD_eq_getElem c 0 hq2] at hh

theorem chunk_getD (c : List Nat) (x s : Nat) (hs : s < 16) :
    ((c.drop x).take 16).getD s 0 = c.getD (x + s) 0 := by
  rw [List.getD_eq_getElem?_getD, List.getD_eq_getElem?_getD, List.getElem?_take_of_lt hs,
    List.getElem?_drop]

theorem blocksOf_getD (c : List Nat) (j : Nat) (hj : j < c.length / 16) :
    ((List.range (c.length / 16)).map
      (fun i => from_flat_array ((c.drop (16 * i)).take 16))).getD j (from_flat_array [])
      = from_flat_array ((c.drop (16 * j)).take 16) := by
  rw [List.getD_eq_getElem _ _ (by simpa using hj)]
  simp

theorem rbab_getD (bs : List AESMat) : ∀ (j r : Nat), j < bs.length → r < 16 →
    (return_blocks_as_bytes bs).getD (16 * j + r) 0
      = (to_flat_array (bs.getD j (from_flat_array []))).getD r 0 := by
  induction bs with
  | nil => intro j r hj _; simp at hj
  | cons b rest ih =>
    intro j r hj hr
    cases j with
    | zero =>
      rw [return_blocks_cons, show 16 * 0 + r = r by omega,
        List.getD_eq_getElem?_getD, List.getElem?_append_left (by rw [to_flat_length]; omega),
        ← List.getD_eq_getElem?_getD]
      rfl
    | succ j2 =>
      rw [return_blocks_cons, show 16 * (j2 + 1) + r = (to_flat_array b).length
          + (16 * j2 + r) by rw [to_flat_length]; omega,
        List.getD_eq_getElem?_getD, List.getElem?_append_right (by omega),
        Nat.add_sub_cancel_left, ← List.getD_eq_getElem?_getD]
      rw [ih j2 r (by simpa using hj) hr]
      rfl

theorem cbc_decode_blocks_getD (rk : List Nat) :
    ∀ (cs : List AESMat) (prev : AESMat) (j : Nat), j < cs.length →
      (cbc_decode_blocks rk prev cs).getD j (from_flat_array [])
        = xor_with_block (decrypt_block rk (cs.getD j (from_flat_array [])))
            (if j = 0 then prev else cs.getD (j - 1) (from_flat_array [])) := by
  intro cs
  induction cs with
  | nil => intro prev j hj; simp at hj
  | cons c rest ih =>
    intro prev j hj
    rw [cbc_decode_blocks]
    cases j with
    | zero => rfl
    | succ j2 =>
      rw [List.getD_cons_succ, ih c j2 (by simpa using hj)]
      cases j2 with
      | zero => rfl
      | succ j3 => rfl

theorem tfa_xwb (m o : AESMat) :
    to_flat_array (xor_with_block m o)
      = List.zipWith Nat.xor (to_flat_array m) (to_flat_array o) := rfl

theorem zipWith_xor_getD : ∀ (a b : List Nat) (r : Nat), r < a.length → r < b.length →
    (List.zipWith Nat.xor a b).getD r 0 = a.getD r 0 ^^^ b.getD r 0 := by
  intro a
  induction a with
  | nil => intro b r h _; simp at h
  | cons x xs ih =>
    intro b r h1 h2
    cases b with
    | nil => simp at h2
    | cons y ys =>
      cases r with
      | zero => rfl
      | succ r2 =>
        simp only [List.zipWith_cons_cons, List.getD_cons_succ]
        exact ih ys r2 (by simpa using h1) (by simpa using h2)

theorem cbc_decode_eq (key cc iv : List Nat) (hk : key.length = 16)
    (hmod : cc.length % 16 = 0) (hne : cc ≠ []) :
    AES.decode cc key (AESMode.CBC iv) = AESOutcome.ok (return_blocks_as_bytes
      (cbc_decode_blocks (aes_128_get_round_keys key) (from_flat_array iv)
        ((List.range (cc.length / 16)).map
          (fun i => from_flat_array ((cc.drop (16 * i)).take 16))))) := by
  unfold AES.decode
  rw [from_bytes_16 key hk]
  dsimp only
  unfold aes_128_cbc_decode
  rw [pkcs_noop_16 cc hmod]
  dsimp only
  rw [divide_in_blocks_ok cc hne]
  rfl

theorem cbc_decode_byte (key cx iv : List Nat) (j r : Nat)
    (hj : j < cx.length / 16) (hr : r < 16) :
    (return_blocks_as_bytes (cbc_decode_blocks (aes_128_get_round_keys key)
      (from_flat_array iv) ((List.range (cx.length / 16)).map
        (fun i2 => from_flat_array ((cx.drop (16 * i2)).take 16))))).getD (16 * j + r) 0
      = (to_flat_array (xor_with_block
          (decrypt_block (aes_128_get_round_keys key)
            (((List.range (cx.length / 16)).map
              (fun i2 => from_flat_array ((cx.drop (16 * i2)).take 16))).getD j
                (from_flat_array [])))
          (if j = 0 then from_flat_array iv
            else ((List.range (cx.length / 16)).map
              (fun i2 => from_flat_array ((cx.drop (16 * i2)).take 16))).getD (j - 1)
                (from_flat_array [])))).getD r 0 := by
  rw [rbab_getD _ j r
    (by rw [cbc_decode_blocks_length, List.length_map, List.length_range]; exact hj) hr]
  rw [cbc_decode_blocks_getD _ _ _ j (by rw [List.length_map, List.length_range]; exact hj)]


theorem xor_pow_ne (x t : Nat) : x ^^^ 2 ^ t ≠ x := by
  intro heq
  have h1 : x ^^^ (x ^^^ 2 ^ t) = x ^^^ x := by rw [heq]
  rw [← Nat.xor_assoc, Nat.xor_self, Nat.zero_xor] at h1
  have h2 : 0 < 2 ^ t := pow_pos (by omega) t
  omega

/-- C6: flipping one bit of ciphertext block `i` (with `1 ≤ i` and block
`i + 1` still inside the buffer) changes the CBC decryption only in
blocks `i` and `i + 1`: every byte outside those two blocks is unchanged,
every byte of block `i + 1` except the corresponding one is unchanged,
and the corresponding byte of block `i + 1` is flipped at exactly the
same bit position (in particular it differs). -/
theorem c6_cbc_bit_flip (k iv c c2 : List Nat) (i pos t : Nat)
    (hk : k.length = 16) (hiv : iv.length = 16)
    (hc16 : c.length % 16 = 0) (hlen2 : c2.length = c.length)
    (ht : t < 8) (hi1 : 1 ≤ i) (hposi : pos / 16 = i)
    (hblocks : 16 * (i + 2) ≤ c.length)
    (hdiff : c2.getD pos 0 = c.getD pos 0 ^^^ 2 ^ t)
    (hsame : ∀ q, q ≠ pos → c2.getD q 0 = c.getD q 0) :
    ∃ p p2, AES.decode c k (AESMode.CBC iv) = AESOutcome.ok p ∧
      AES.decode c2 k (AESMode.CBC iv) = AESOutcome.ok p2 ∧
      p.length = c.length ∧ p2.length = c.length ∧
      (∀ q, q < c.length → q / 16 ≠ i → q / 16 ≠ i + 1 → p2.getD q 0 = p.getD q 0) ∧
      (∀ q, q < c.length → q / 16 = i + 1 →
        p2.getD q 0 = if q = pos + 16 then p.getD q 0 ^^^ 2 ^ t else p.getD q 0) ∧
      p2.getD (pos + 16) 0 ≠ p.getD (pos + 16) 0 := by
  have hcne : c ≠ [] := by
    intro h
    rw [h] at hblocks
    simp at hblocks
  have hc2mod : c2.length % 16 = 0 := by rw [hlen2]; exact hc16
  have hc2ne : c2 ≠ [] := by
    intro h
    rw [h] at hlen2
    exact hcne (List.eq_nil_of_length_eq_zero (by simpa using hlen2.symm))
  have hnb2 : c2.length / 16 = c.length / 16 := by rw [hlen2]
  have hchunk_eq : ∀ j, j ≠ i → (c2.drop (16 * j)).take 16 = (c.drop (16 * j)).take 16 := by
    intro j hji
    apply list_eq_of_getD
    · rw [List.length_take, List.length_take, List.length_drop, List.length_drop, hlen2]
    · intro s hslen
      have hs16 : s < 16 := by
        rw [List.length_take] at hslen
        omega
      rw [chunk_getD c2 _ _ hs16, chunk_getD c _ _ hs16]
      apply hsame
      intro habs
      apply hji
      rw [← hposi, ← habs]
      omega
  have hblock_eq : ∀ j, j < c.length / 16 → j ≠ i →
      ((List.range (c2.length / 16)).map
        (fun i2 => from_flat_array ((c2.drop (16 * i2)).take 16))).getD j (from_flat_array [])
      = ((List.range (c.length / 16)).map
        (fun i2 => from_flat_array ((c.drop (16 * i2)).take 16))).getD j (from_flat_array []) := by
    intro j hj hji
    rw [blocksOf_getD c2 j (by rw [hnb2]; exact hj), blocksOf_getD c j hj, hchunk_eq j hji]
  have hdec1 := cbc_decode_eq k c iv hk hc16 hcne
  have hdec2 := cbc_decode_eq k c2 iv hk hc2mod hc2ne
  have hclen : c.length = 16 * (c.length / 16) := by omega
  have hi1lt : i + 1 < c.length / 16 := by omega
  have hilt : i < c.length / 16 := by omega
  have hchunk2len : ((c2.drop (16 * i)).take 16).length = 16 := by
    rw [List.length_take, List.length_drop, hlen2]
    omega
  have hchunklen : ((c.drop (16 * i)).take 16).length = 16 := by
    rw [List.length_take, List.length_drop]
    omega
  refine ⟨_, _, hdec1, hdec2, ?_, ?_, ?_, ?_, ?_⟩
  · rw [return_blocks_length, cbc_decode_blocks_length, List.length_map, List.length_range]
    omega
  · rw [return_blocks_length, cbc_decode_blocks_length, List.length_map, List.length_range]
    omega
  · intro q hq hq1 hq2
    have hjlt : q / 16 < c.length / 16 := by omega
    have hq16 : q = 16 * (q / 16) + q % 16 := by omega
    have hr16 : q % 16 < 16 := by omega
    rw [hq16, cbc_decode_byte k c2 iv (q / 16) (q % 16) (by rw [hnb2]; exact hjlt) hr16,
      cbc_decode_byte k c iv (q / 16) (q % 16) hjlt hr16]
    rw [hblock_eq (q / 16) hjlt hq1]
    by_cases hj0 : q / 16 = 0
    · rw [hj0, if_pos rfl, if_pos rfl]
    · rw [if_neg hj0, if_neg hj0, hblock_eq (q / 16 - 1) (by omega) (by omega)]
  · intro q hq hqi
    have hq16 : q = 16 * (i + 1) + q % 16 := by omega
    have hr16 : q % 16 < 16 := by omega
    by_cases hqpos : q = pos + 16
    · rw [if_pos hqpos]
      rw [hq16, cbc_decode_byte k c2 iv (i + 1) (q % 16) (by rw [hnb2]; exact hi1lt) hr16,
        cbc_decode_byte k c iv (i + 1) (q % 16) hi1lt hr16]
      rw [hblock_eq (i + 1) hi1lt (by omega)]
      rw [if_neg (by omega : ¬i + 1 = 0), if_neg (by omega : ¬i + 1 = 0)]
      rw [show i + 1 - 1 = i from rfl]
      rw [blocksOf_getD c2 i (by rw [hnb2]; exact hilt), blocksOf_getD c i hilt]
      rw [tfa_xwb, tfa_xwb]
      rw [zipWith_xor_getD _ _ _ (by rw [to_flat_length]; omega) (by rw [to_flat_length]; omega),
        zipWith_xor_getD _ _ _ (by rw [to_flat_length]; omega) (by rw [to_flat_length]; omega)]
      rw [to_flat_from_flat _ hchunk2len, to_flat_from_flat _ hchunklen]
      rw [chunk_getD c2 _ _ hr16, chunk_getD c _ _ hr16]
      rw [show 16 * i + q % 16 = pos by omega]
      rw [hdiff, ← Nat.xor_assoc]
    · rw [if_neg hqpos]
      rw [hq16, cbc_decode_byte k c2 iv (i + 1) (q % 16) (by rw [hnb2]; exact hi1lt) hr16,
        cbc_decode_byte k c iv (i + 1) (q % 16) hi1lt hr16]
      rw [hblock_eq (i + 1) hi1lt (by omega)]
      rw [if_neg (by omega : ¬i + 1 = 0), if_neg (by omega : ¬i + 1 = 0)]
      rw [show i + 1 - 1 = i from rfl]
      rw [blocksOf_getD c2 i (by rw [hnb2]; exact hilt), blocksOf_getD c i hilt]
      rw [tfa_xwb, tfa_xwb]
      rw [zipWith_xor_getD _ _ _ (by rw [to_flat_length]; omega) (by rw [to_flat_length]; omega),
        zipWith_xor_getD _ _ _ (by rw [to_flat_length]; omega) (by rw [to_flat_length]; omega)]
      rw [to_flat_from_flat _ hchunk2len, to_flat_from_flat _ hchunklen]
      rw [chunk_getD c2 _ _ hr16, chunk_getD c _ _ hr16]
      rw [hsame (16 * i + q % 16) (by omega)]
  · have hr16 : pos % 16 < 16 := by omega
    rw [show pos + 16 = 16 * (i + 1) + pos % 16 by omega]
    rw [cbc_decode_byte k c2 iv (i + 1) (pos % 16) (by rw [hnb2]; exact hi1lt) hr16,
      cbc_decode_byte k c iv (i + 1) (pos % 16) hi1lt hr16]
    rw [hblock_eq (i + 1) hi1lt (by omega)]
    rw [if_neg (by omega : ¬i + 1 = 0), if_neg (by omega : ¬i + 1 = 0)]
    rw [show i + 1 - 1 = i from rfl]
    rw [blocksOf_getD c2 i (by rw [hnb2]; exact hilt), blocksOf_getD c i hilt]
    rw [tfa_xwb, tfa_xwb]
    rw [zipWith_xor_getD _ _ _ (by rw [to_flat_length]; omega) (by rw [to_flat_length]; omega),
      zipWith_xor_getD _ _ _ (by rw [to_flat_length]; omega) (by rw [to_flat_length]; omega)]
    rw [to_flat_from_flat _ hchunk2len, to_flat_from_flat _ hchunklen]
    rw [chunk_getD c2 _ _ hr16, chunk_getD c _ _ hr16]
    rw [show 16 * i + pos % 16 = pos by omega]
    rw [hdiff, ← Nat.xor_assoc]
    exact xor_pow_ne _ t

theorem c6_cbc_bit_flip_witness :
    ∃ p p2,
      AES.decode (List.replicate 48 0) kung_fu_key
        (AESMode.CBC (List.replicate 16 0)) = AESOutcome.ok p ∧
      AES.decode (List.replicate 16 0 ++ 1 :: List.replicate 31 0) kung_fu_key
        (AESMode.CBC (List.replicate 16 0)) = AESOutcome.ok p2 ∧
      p.length = (List.replicate (48 : Nat) (0 : Nat)).length ∧
      p2.length = (List.replicate (48 : Nat) (0 : Nat)).length ∧
      (∀ q, q < (List.replicate (48 : Nat) (0 : Nat)).length → q / 16 ≠ 1 → q / 16 ≠ 1 + 1 →
        p2.getD q 0 = p.getD q 0) ∧
      (∀ q, q < (List.replicate (48 : Nat) (0 : Nat)).length → q / 16 = 1 + 1 →
        p2.getD q 0 = if q = 16 + 16 then p.getD q 0 ^^^ 2 ^ 0 else p.getD q 0) ∧
      p2.getD (16 + 16) 0 ≠ p.getD (16 + 16) 0 :=
  c6_cbc_bit_flip kung_fu_key (List.replicate 16 0) (List.replicate 48 0)
    (List.replicate 16 0 ++ 1 :: List.replicate 31 0) 1 16 0
    (by decide) (by decide) (by decide) (by decide) (by decide) (by decide)
    (by decide) (by decide) (by decide)
    (by
      intro q hq
      rcases Nat.lt_or_ge q 48 with h | h
      · exact (by decide : ∀ q2 < 48, q2 ≠ 16 →
          (List.replicate 16 0 ++ 1 :: List.replicate 31 0).getD q2 0
            = (List.replicate 48 0).getD q2 (0 : Nat)) q h hq
      · rw [List.getD_eq_default, List.getD_eq_default]
        · simp only [List.length_replicate]
          omega
        · simp only [List.length_append, List.length_replicate, List.length_cons]
          omega)
